import Mathlib

set_option maxHeartbeats 1000000

/-!
Verification of the brainfuck JIT compiler (`bf_jit64.cpp`).

The development shallowly embeds the compiler: machine-code byte buffers are
`List Nat` (each entry a byte value), the source program is a `List Char`,
and the code-generation routines are translated function by function from
the C++ source.  A small operational semantics for exactly the x86-64
instructions the compiler emits is defined further below, so that claims
about the behaviour of the generated code can be settled against the real
byte encodings.
-/


/-- Two to the sixty-fourth, the register width modulus. -/
def U64 : Nat := 2 ^ 64

/-- Two to the thirty-second, the displacement field modulus. -/
def U32 : Nat := 2 ^ 32

/-- `uint32_t` conversion of a (possibly negative) integer, as performed by
the C++ assignments `uint32_t relative_address = ...`. -/
def toU32 (z : Int) : Nat := (z % (U32 : Int)).toNat

/-- Serialize a value below `2^32` as four little-endian bytes, as done by
`string((char *) &relative_address, 4)` on a little-endian host. -/
def le32 (v : Nat) : List Nat :=
  [v % 256, v / 256 % 256, v / 65536 % 256, v / 16777216 % 256]

/-- Read four little-endian bytes back into a value below `2^32`. -/
def decodeLE32 (b0 b1 b2 b3 : Nat) : Nat :=
  b0 + 256 * b1 + 65536 * b2 + 16777216 * b3

/-- Interpret a value below `2^32` as a signed (two's-complement) 32-bit
integer, the meaning the processor gives a `rel32` displacement field. -/
def sint32 (v : Nat) : Int :=
  if v < 2 ^ 31 then (v : Int) else (v : Int) - (U32 : Int)

/-- Interpret a value below `2^8` as a signed 8-bit integer (`rel8`). -/
def sint8 (v : Nat) : Int :=
  if v < 2 ^ 7 then (v : Int) else (v : Int) - 256

/-- Interpret a value below `2^64` as a signed 64-bit integer, the view the
`jl` condition takes of `%rax`. -/
def sint64 (v : Nat) : Int :=
  if v < 2 ^ 63 then (v : Int) else (v : Int) - (U64 : Int)

/-! ## The machine-code templates (the `const char` arrays of the source) -/

/-- Prologue: push the callee-saved registers and stage the five incoming
arguments into them. -/
def START : List Nat :=
  [0x41, 0x54,
   0x41, 0x55,
   0x41, 0x56,
   0x55,
   0x53,
   0x49, 0x89, 0xfc,
   0x49, 0x89, 0xf5,
   0x49, 0x89, 0xd6,
   0x48, 0x89, 0xcd,
   0x4c, 0x89, 0xc3]

/-- Epilogue: restore the callee-saved registers and return. -/
def EXIT : List Nat :=
  [0x5b,
   0x5d,
   0x41, 0x5e,
   0x41, 0x5d,
   0x41, 0x5c,
   0xc3]

/-- `<` : decrement the tape pointer. -/
def LEFT : List Nat := [0x48, 0x83, 0xeb, 0x01]

/-- `>` : increment the tape pointer. -/
def RIGHT : List Nat := [0x48, 0x83, 0xc3, 0x01]

/-- `-` : decrement the byte at the tape pointer through `%al`. -/
def SUBTRACT : List Nat := [0x8a, 0x03, 0x2c, 0x01, 0x88, 0x03]

/-- `+` : increment the byte at the tape pointer through `%al`. -/
def ADD : List Nat := [0x8a, 0x03, 0x04, 0x01, 0x88, 0x03]

/-- `,` part 1: call the read capability and compare `%rax` with zero. -/
def READ : List Nat :=
  [0x48, 0x89, 0xef,
   0x41, 0xff, 0xd6,
   0x48, 0x83, 0xf8, 0x00]

/-- `,` part 2: store `%rax` at the tape pointer (`mov %rax,(%rbx)`). -/
def READ_STORE : List Nat := [0x48, 0x89, 0x03]

/-- `.` : call the write capability with the current byte and compare
`%rax` with one. -/
def WRITE : List Nat :=
  [0x4c, 0x89, 0xef,
   0x48, 0x0f, 0xb6, 0x33,
   0x41, 0xff, 0xd4,
   0x48, 0x83, 0xf8, 0x01]

/-- Loop head: `cmpb $0x0,(%rbx)`. -/
def LOOP_CMP : List Nat := [0x80, 0x3b, 0x00]

/-- The six placeholder bytes reserved for the loop-skip branch. -/
def PLACEHOLDER : List Nat := [0xde, 0xad, 0xbe, 0xef, 0xde, 0xad]

/-! ## The relocation patcher -/

/-- `BrainfuckProgram::add_jne_to_exit`. -/
def add_jne_to_exit (exitOfs : Nat) (code : List Nat) : List Nat :=
  let code := code ++ [0x0f, 0x85]
  code ++ le32 (toU32 ((exitOfs : Int) - ((code.length : Int) + 4)))

/-- `BrainfuckProgram::add_jl_to_exit`. -/
def add_jl_to_exit (exitOfs : Nat) (code : List Nat) : List Nat :=
  let code := code ++ [0x0f, 0x8c]
  code ++ le32 (toU32 ((exitOfs : Int) - ((code.length : Int) + 4)))

/-- `BrainfuckProgram::add_jmp_to_offset`. -/
def add_jmp_to_offset (offset : Nat) (code : List Nat) : List Nat :=
  let code := code ++ [0xe9]
  code ++ le32 (toU32 ((offset : Int) - ((code.length : Int) + 4)))

/-- `std::string::replace(pos, len, repl)` with `repl.length = len`. -/
def replace_range (pos len : Nat) (repl : List Nat) (s : List Nat) : List Nat :=
  s.take pos ++ repl ++ s.drop (pos + len)

/-! ## The loop matcher -/

/-- `find_loop_end`: scan the characters after a `[` with a nesting level
that starts at 1, is incremented at `[` and decremented at `]`; return the
index (relative to the character after the `[`) where the level reaches 0.
The argument list models the iterator range `(loop_start, string_end)`. -/
def find_loop_end : List Char → Int → Option Nat
  | [], _ => none
  | c :: rest, level =>
    if c = '[' then
      (find_loop_end rest (level + 1)).map (· + 1)
    else if c = ']' then
      if level - 1 = 0 then some 0
      else (find_loop_end rest (level - 1)).map (· + 1)
    else
      (find_loop_end rest level).map (· + 1)

/-! ## The code generators -/

mutual

/-- `BrainfuckProgram::generate_sequence_code`: scan the characters,
appending one template per instruction; at `[`, locate the matching `]`,
generate the loop, and resume after it; fail when no match exists.
Characters outside the instruction set (including a stray `]`) fall through
the `switch` and are skipped. -/
def generate_sequence_code (exitOfs : Nat) : List Char → List Nat → Option (List Nat)
  | [], code => some code
  | c :: rest, code =>
    if c = '<' then generate_sequence_code exitOfs rest (code ++ LEFT)
    else if c = '>' then generate_sequence_code exitOfs rest (code ++ RIGHT)
    else if c = '-' then generate_sequence_code exitOfs rest (code ++ SUBTRACT)
    else if c = '+' then generate_sequence_code exitOfs rest (code ++ ADD)
    else if c = ',' then
      generate_sequence_code exitOfs rest
        ((add_jl_to_exit exitOfs (code ++ READ)) ++ READ_STORE)
    else if c = '.' then
      generate_sequence_code exitOfs rest (add_jne_to_exit exitOfs (code ++ WRITE))
    else if c = '[' then
      match find_loop_end rest 1 with
      | none => none
      | some j =>
        match generate_loop_code exitOfs (rest.take j) code with
        | none => none
        | some code1 => generate_sequence_code exitOfs (rest.drop (j + 1)) code1
    else generate_sequence_code exitOfs rest code
termination_by s code => 2 * s.length
decreasing_by
  all_goals simp_wf
  all_goals first
    | omega
    | (simp; omega)

/-- `BrainfuckProgram::generate_loop_code` applied to the loop body (the
characters strictly between the brackets): emit the zero test, reserve six
placeholder bytes, emit the body, emit the jump back to the test, then
overwrite the placeholder with the `je` that skips past the body. -/
def generate_loop_code (exitOfs : Nat) (body : List Char) (code : List Nat) :
    Option (List Nat) :=
  let loop_start := code.length
  let code := code ++ LOOP_CMP
  let jump_start := code.length
  let code := code ++ PLACEHOLDER
  match generate_sequence_code exitOfs body code with
  | none => none
  | some code1 =>
    let code2 := add_jmp_to_offset loop_start code1
    let relative_end_of_loop := toU32 ((code2.length : Int) - ((jump_start : Int) + 2 + 4))
    let jump_to_end := [0x0f, 0x84] ++ le32 relative_end_of_loop
    some (replace_range jump_start 6 jump_to_end code2)
termination_by 2 * body.length + 1
decreasing_by
  all_goals simp_wf
  all_goals first
    | omega
    | (simp; omega)

end

/-! ## `init` and the executable-memory transition -/

/-- The shared exit offset: the prologue, then the two-byte `jmp` that
skips the epilogue. -/
def exit_offset : Nat := START.length + 2

/-- The pure part of `BrainfuckProgram::init`: build the complete code
buffer (prologue, skip-jump, epilogue, program body, final jump to exit),
or fail on an unmatched `[`. -/
def buildCode (source : List Char) : Option (List Nat) :=
  let code := START ++ [0xeb, EXIT.length] ++ EXIT
  match generate_sequence_code exit_offset source code with
  | none => none
  | some code1 => some (add_jmp_to_offset exit_offset code1)

/-- Outcome of `init`, distinguishing its three `return false` sites. -/
inductive InitResult where
  | ok : InitResult
  | errGenerate : InitResult
  | errMmap : InitResult
  | errMprotect : InitResult
deriving DecidableEq, Repr

/-- The observable state of the `BrainfuckProgram` object after `init`:
the `executable_` member (an address, `0` modelling `NULL`, the value the
constructor stores), whether `mmap` was invoked, and the size that was
requested for the mapping. -/
structure InitState where
  executable : Int
  mmapCalled : Bool
  requiredMemory : Nat
deriving DecidableEq, Repr

/-- `BrainfuckProgram::init`.  The operating system is abstracted by the
page size, the address `mmap` returns (POSIX reports failure with
`MAP_FAILED`, i.e. `-1`), and whether `mprotect` succeeds.  The C++ code
tests the `mmap` result against `NULL` (`= 0`), computes the mapping size
as `(code.size() / pagesize + 1) * pagesize`, and returns `false` from
three distinct sites. -/
def init (pagesize : Nat) (mmapRet : Int) (mprotectOk : Bool)
    (source : List Char) : InitResult × InitState :=
  match buildCode source with
  | none => (InitResult.errGenerate, ⟨0, false, 0⟩)
  | some code =>
    let required := (code.length / pagesize + 1) * pagesize
    let executable := mmapRet
    if executable = 0 then (InitResult.errMmap, ⟨executable, true, required⟩)
    else if mprotectOk then (InitResult.ok, ⟨executable, true, required⟩)
    else (InitResult.errMprotect, ⟨executable, true, required⟩)

/-! ## The nesting-depth reading of the loop matcher (C6) -/

/-- Contribution of one character to the nesting depth: `[` opens a level,
`]` closes one, everything else is neutral. -/
def bdelta (c : Char) : Int := if c = '[' then 1 else if c = ']' then -1 else 0

/-- The nesting depth after consuming the first `k` characters, starting
from depth `L` (the loop matcher starts at 1). -/
def depth (L : Int) (s : List Char) (k : Nat) : Int :=
  L + ((s.take k).map bdelta).sum

/-! ## Append-only emission -/

/-- `c1` extends `c`: the emitted buffer grows by appending. -/
def BufExt (c c1 : List Nat) : Prop := ∃ t, c1 = c ++ t

/-! ## Syntactic balance: every `[` has a matching `]` (spec-side notion) -/

/-- Every `[` in the source finds its matching `]` through the loop
matcher, recursively inside loop bodies as well.  This is the spec's
"syntactically balanced (every `[` has a matching `]`)" reading; it is
grounded in counting by the depth characterization of `find_loop_end`
proved above. -/
def allLoopsClosed : List Char → Bool
  | [] => true
  | c :: rest =>
    if c = '[' then
      match find_loop_end rest 1 with
      | none => false
      | some j => allLoopsClosed (rest.take j) && allLoopsClosed (rest.drop (j + 1))
    else allLoopsClosed rest
termination_by s => s.length
decreasing_by
  all_goals simp_wf
  all_goals first
    | omega
    | (simp; omega)

/-! ## An operational semantics for the emitted x86-64 subset

The generated program only ever contains the instructions of the templates
above.  `decode` recognizes exactly those byte sequences; `step` executes
one instruction.  Registers hold values below `2^64`; the tape is a byte
memory indexed by address; the capability calls (`callq *%r14`,
`callq *%r12`) are modelled by oracles giving the return value of each
successive call, with the caller-saved argument registers clobbered. -/

inductive Instr where
  | pushR12 | pushR13 | pushR14 | pushRbp | pushRbx
  | movRdiR12 | movRsiR13 | movRdxR14 | movRcxRbp | movR8Rbx
  | popRbx | popRbp | popR14 | popR13 | popR12
  | retq
  | jmp8 (d : Nat)
  | subRbx1 | addRbx1
  | movMemAl | subAl1 | addAl1 | movAlMem
  | movRbpRdi | callR14
  | cmpRaxImm (i : Nat)
  | jl (d : Nat) | jne (d : Nat) | je (d : Nat) | jmp32 (d : Nat)
  | movRaxMem
  | movR13Rdi | movzbqMemRsi | callR12
  | cmpbMem0
deriving DecidableEq, Repr

/-- Decode the instruction at the head of the byte sequence. -/
def decode : List Nat → Option Instr
  | 0x41 :: 0x54 :: _ => some Instr.pushR12
  | 0x41 :: 0x55 :: _ => some Instr.pushR13
  | 0x41 :: 0x56 :: _ => some Instr.pushR14
  | 0x41 :: 0x5e :: _ => some Instr.popR14
  | 0x41 :: 0x5d :: _ => some Instr.popR13
  | 0x41 :: 0x5c :: _ => some Instr.popR12
  | 0x41 :: 0xff :: 0xd6 :: _ => some Instr.callR14
  | 0x41 :: 0xff :: 0xd4 :: _ => some Instr.callR12
  | 0x55 :: _ => some Instr.pushRbp
  | 0x53 :: _ => some Instr.pushRbx
  | 0x5b :: _ => some Instr.popRbx
  | 0x5d :: _ => some Instr.popRbp
  | 0xc3 :: _ => some Instr.retq
  | 0x49 :: 0x89 :: 0xfc :: _ => some Instr.movRdiR12
  | 0x49 :: 0x89 :: 0xf5 :: _ => some Instr.movRsiR13
  | 0x49 :: 0x89 :: 0xd6 :: _ => some Instr.movRdxR14
  | 0x48 :: 0x89 :: 0xcd :: _ => some Instr.movRcxRbp
  | 0x4c :: 0x89 :: 0xc3 :: _ => some Instr.movR8Rbx
  | 0x4c :: 0x89 :: 0xef :: _ => some Instr.movR13Rdi
  | 0x48 :: 0x89 :: 0xef :: _ => some Instr.movRbpRdi
  | 0x48 :: 0x89 :: 0x03 :: _ => some Instr.movRaxMem
  | 0x48 :: 0x83 :: 0xeb :: 0x01 :: _ => some Instr.subRbx1
  | 0x48 :: 0x83 :: 0xc3 :: 0x01 :: _ => some Instr.addRbx1
  | 0x48 :: 0x83 :: 0xf8 :: i :: _ => some (Instr.cmpRaxImm i)
  | 0x48 :: 0x0f :: 0xb6 :: 0x33 :: _ => some Instr.movzbqMemRsi
  | 0x8a :: 0x03 :: _ => some Instr.movMemAl
  | 0x2c :: 0x01 :: _ => some Instr.subAl1
  | 0x04 :: 0x01 :: _ => some Instr.addAl1
  | 0x88 :: 0x03 :: _ => some Instr.movAlMem
  | 0x80 :: 0x3b :: 0x00 :: _ => some Instr.cmpbMem0
  | 0xeb :: d :: _ => some (Instr.jmp8 d)
  | 0xe9 :: b0 :: b1 :: b2 :: b3 :: _ => some (Instr.jmp32 (decodeLE32 b0 b1 b2 b3))
  | 0x0f :: 0x8c :: b0 :: b1 :: b2 :: b3 :: _ => some (Instr.jl (decodeLE32 b0 b1 b2 b3))
  | 0x0f :: 0x85 :: b0 :: b1 :: b2 :: b3 :: _ => some (Instr.jne (decodeLE32 b0 b1 b2 b3))
  | 0x0f :: 0x84 :: b0 :: b1 :: b2 :: b3 :: _ => some (Instr.je (decodeLE32 b0 b1 b2 b3))
  | _ => none

/-- Machine state: instruction pointer (an offset into the code buffer),
the registers the generated code touches, the two condition-flag
predicates the emitted conditional branches test (`zf` for `je`/`jne`,
`ltf` for `jl`), the stack, the byte memory, and counters of capability
invocations performed so far. -/
structure Machine where
  rip : Nat
  rax : Nat
  rbx : Nat
  rcx : Nat
  rdx : Nat
  rsi : Nat
  rdi : Nat
  rbp : Nat
  r8 : Nat
  r12 : Nat
  r13 : Nat
  r14 : Nat
  zf : Bool
  ltf : Bool
  stack : List Nat
  mem : Nat → Nat
  reads : Nat
  writes : Nat

/-- Opaque value of the write-capability function pointer. -/
def WTOK : Nat := 1

/-- Opaque value of the read-capability function pointer. -/
def RTOK : Nat := 2

inductive StepRes where
  | running (m : Machine)
  | halted (m : Machine)
  | stuck

/-- Store one byte. -/
def store8 (mem : Nat → Nat) (addr v : Nat) : Nat → Nat :=
  fun a => if a = addr % U64 then v % 256 else mem a

/-- `mov %rax,(%rbx)` stores all eight bytes of the register,
little-endian. -/
def store64 (mem : Nat → Nat) (addr v : Nat) : Nat → Nat :=
  fun a =>
    if a = addr % U64 then v % 256
    else if a = (addr + 1) % U64 then v / 2 ^ 8 % 256
    else if a = (addr + 2) % U64 then v / 2 ^ 16 % 256
    else if a = (addr + 3) % U64 then v / 2 ^ 24 % 256
    else if a = (addr + 4) % U64 then v / 2 ^ 32 % 256
    else if a = (addr + 5) % U64 then v / 2 ^ 40 % 256
    else if a = (addr + 6) % U64 then v / 2 ^ 48 % 256
    else if a = (addr + 7) % U64 then v / 2 ^ 56 % 256
    else mem a

/-- Transfer control to `rip + len + d` with `d` a signed displacement. -/
def jumpRel (m : Machine) (len : Nat) (d : Nat) : StepRes :=
  let t : Int := (m.rip : Int) + (len : Int) + sint32 d
  if t < 0 then StepRes.stuck else StepRes.running { m with rip := t.toNat }

/-- Execute the single instruction at `rip`. -/
def step (buf : List Nat) (ro : Nat → Nat) (wo : Nat → Bool) (m : Machine) : StepRes :=
  match decode (buf.drop m.rip) with
  | none => StepRes.stuck
  | some i =>
    match i with
    | Instr.pushR12 => StepRes.running { m with rip := m.rip + 2, stack := m.r12 :: m.stack }
    | Instr.pushR13 => StepRes.running { m with rip := m.rip + 2, stack := m.r13 :: m.stack }
    | Instr.pushR14 => StepRes.running { m with rip := m.rip + 2, stack := m.r14 :: m.stack }
    | Instr.pushRbp => StepRes.running { m with rip := m.rip + 1, stack := m.rbp :: m.stack }
    | Instr.pushRbx => StepRes.running { m with rip := m.rip + 1, stack := m.rbx :: m.stack }
    | Instr.movRdiR12 => StepRes.running { m with rip := m.rip + 3, r12 := m.rdi }
    | Instr.movRsiR13 => StepRes.running { m with rip := m.rip + 3, r13 := m.rsi }
    | Instr.movRdxR14 => StepRes.running { m with rip := m.rip + 3, r14 := m.rdx }
    | Instr.movRcxRbp => StepRes.running { m with rip := m.rip + 3, rbp := m.rcx }
    | Instr.movR8Rbx => StepRes.running { m with rip := m.rip + 3, rbx := m.r8 }
    | Instr.popRbx =>
      match m.stack with
      | [] => StepRes.stuck
      | v :: st => StepRes.running { m with rip := m.rip + 1, rbx := v, stack := st }
    | Instr.popRbp =>
      match m.stack with
      | [] => StepRes.stuck
      | v :: st => StepRes.running { m with rip := m.rip + 1, rbp := v, stack := st }
    | Instr.popR14 =>
      match m.stack with
      | [] => StepRes.stuck
      | v :: st => StepRes.running { m with rip := m.rip + 2, r14 := v, stack := st }
    | Instr.popR13 =>
      match m.stack with
      | [] => StepRes.stuck
      | v :: st => StepRes.running { m with rip := m.rip + 2, r13 := v, stack := st }
    | Instr.popR12 =>
      match m.stack with
      | [] => StepRes.stuck
      | v :: st => StepRes.running { m with rip := m.rip + 2, r12 := v, stack := st }
    | Instr.retq =>
      match m.stack with
      | [] => StepRes.halted m
      | a :: st => StepRes.running { m with rip := a, stack := st }
    | Instr.jmp8 d =>
      let t : Int := (m.rip : Int) + 2 + sint8 d
      if t < 0 then StepRes.stuck else StepRes.running { m with rip := t.toNat }
    | Instr.subRbx1 =>
      StepRes.running { m with rip := m.rip + 4, rbx := (m.rbx + (U64 - 1)) % U64 }
    | Instr.addRbx1 =>
      StepRes.running { m with rip := m.rip + 4, rbx := (m.rbx + 1) % U64 }
    | Instr.movMemAl =>
      StepRes.running { m with rip := m.rip + 2, rax := m.rax - m.rax % 256 + m.mem (m.rbx % U64) % 256 }
    | Instr.subAl1 =>
      let al := m.rax % 256
      let r := (al + 255) % 256
      StepRes.running { m with rip := m.rip + 2, rax := m.rax - al + r, zf := decide (r = 0), ltf := decide ((128 ≤ r) ≠ (al = 128)) }
    | Instr.addAl1 =>
      let al := m.rax % 256
      let r := (al + 1) % 256
      StepRes.running { m with rip := m.rip + 2, rax := m.rax - al + r, zf := decide (r = 0), ltf := decide ((128 ≤ r) ≠ (al = 127)) }
    | Instr.movAlMem =>
      StepRes.running { m with rip := m.rip + 2, mem := store8 m.mem m.rbx m.rax }
    | Instr.movRbpRdi => StepRes.running { m with rip := m.rip + 3, rdi := m.rbp }
    | Instr.callR14 =>
      if m.r14 = RTOK then
        StepRes.running { m with rip := m.rip + 3, rax := ro m.reads % U64, rdi := 0, rsi := 0, reads := m.reads + 1 }
      else if m.r14 = WTOK then
        StepRes.running { m with rip := m.rip + 3, rax := if wo m.writes then 1 else 0, rdi := 0, rsi := 0, writes := m.writes + 1 }
      else StepRes.stuck
    | Instr.callR12 =>
      if m.r12 = RTOK then
        StepRes.running { m with rip := m.rip + 3, rax := ro m.reads % U64, rdi := 0, rsi := 0, reads := m.reads + 1 }
      else if m.r12 = WTOK then
        StepRes.running { m with rip := m.rip + 3, rax := if wo m.writes then 1 else 0, rdi := 0, rsi := 0, writes := m.writes + 1 }
      else StepRes.stuck
    | Instr.cmpRaxImm i =>
      StepRes.running { m with rip := m.rip + 4, zf := decide (m.rax = i), ltf := decide (sint64 m.rax < (i : Int)) }
    | Instr.jl d => if m.ltf then jumpRel m 6 d else StepRes.running { m with rip := m.rip + 6 }
    | Instr.jne d => if m.zf then StepRes.running { m with rip := m.rip + 6 } else jumpRel m 6 d
    | Instr.je d => if m.zf then jumpRel m 6 d else StepRes.running { m with rip := m.rip + 6 }
    | Instr.jmp32 d => jumpRel m 5 d
    | Instr.movRaxMem =>
      StepRes.running { m with rip := m.rip + 3, mem := store64 m.mem m.rbx m.rax }
    | Instr.movR13Rdi => StepRes.running { m with rip := m.rip + 3, rdi := m.r13 }
    | Instr.movzbqMemRsi =>
      StepRes.running { m with rip := m.rip + 4, rsi := m.mem (m.rbx % U64) % 256 }
    | Instr.cmpbMem0 =>
      StepRes.running { m with rip := m.rip + 3, zf := decide (m.mem (m.rbx % U64) % 256 = 0), ltf := decide (128 ≤ m.mem (m.rbx % U64) % 256) }

/-- Iterate the machine for a given amount of fuel. -/
def iter (buf : List Nat) (ro : Nat → Nat) (wo : Nat → Bool) : Nat → Machine → StepRes
  | 0, m => StepRes.running m
  | n + 1, m =>
    match step buf ro wo m with
    | StepRes.running m1 => iter buf ro wo n m1
    | r => r

/-- The machine state at entry: the five arguments in `rdi`, `rsi`, `rdx`,
`rcx`, `r8` per the System V AMD64 calling convention (write capability,
write context, read capability, read context, memory-arena base), an empty
stack, and zeroed scratch registers. -/
def initMachine (writeArg readArg base : Nat) (mem0 : Nat → Nat) : Machine :=
  { rip := 0, rax := 0, rbx := 0, rcx := readArg % U64, rdx := RTOK,
    rsi := writeArg % U64, rdi := WTOK, rbp := 0, r8 := base % U64,
    r12 := 0, r13 := 0, r14 := 0, zf := false, ltf := false,
    stack := [], mem := mem0, reads := 0, writes := 0 }

/-- The byte at address `a` of the tape after a run that halts (with the
given fuel), or `none` if the run is still going or stuck. -/
def finalMem (buf : List Nat) (ro : Nat → Nat) (wo : Nat → Bool) (n : Nat)
    (m : Machine) (a : Nat) : Option Nat :=
  match iter buf ro wo n m with
  | StepRes.halted mf => some (mf.mem a)
  | _ => none

/-- The number of read-capability calls after a halting run. -/
def finalReads (buf : List Nat) (ro : Nat → Nat) (wo : Nat → Bool) (n : Nat)
    (m : Machine) : Option Nat :=
  match iter buf ro wo n m with
  | StepRes.halted mf => some mf.reads
  | _ => none

/-- The number of write-capability calls after a halting run. -/
def finalWrites (buf : List Nat) (ro : Nat → Nat) (wo : Nat → Bool) (n : Nat)
    (m : Machine) : Option Nat :=
  match iter buf ro wo n m with
  | StepRes.halted mf => some mf.writes
  | _ => none

/-- The compiled code of the program `,+`. -/
def commaPlusBuf : List Nat :=
  [65, 84, 65, 85, 65, 86, 85, 83, 73, 137, 252, 73, 137, 245, 73, 137, 214,
   72, 137, 205, 76, 137, 195, 235, 9, 91, 93, 65, 94, 65, 93, 65, 92, 195,
   72, 137, 239, 65, 255, 214, 72, 131, 248, 0, 15, 140, 231, 255, 255, 255,
   72, 137, 3, 138, 3, 4, 1, 136, 3, 233, 217, 255, 255, 255]

/-- The compiled code of the program `,`. -/
def commaBuf : List Nat :=
  [65, 84, 65, 85, 65, 86, 85, 83, 73, 137, 252, 73, 137, 245, 73, 137, 214,
   72, 137, 205, 76, 137, 195, 235, 9, 91, 93, 65, 94, 65, 93, 65, 92, 195,
   72, 137, 239, 65, 255, 214, 72, 131, 248, 0, 15, 140, 231, 255, 255, 255,
   72, 137, 3, 233, 223, 255, 255, 255]

/-! ## Byte-layout reasoning -/

/-- The bytes `bs` sit in `buf` starting at offset `p`. -/
def BytesAt (buf : List Nat) (p : Nat) (bs : List Nat) : Prop :=
  ∀ i, i < bs.length → buf[p + i]? = bs[i]?

/-! ## Safety machinery for runs of compiled programs -/

/-- Register/stack invariant maintained by the program body: the two
capability pointers staged by the prologue are intact and the stack holds
exactly the five values pushed by the prologue. -/
def RegInv (m : Machine) : Prop :=
  m.r12 = WTOK ∧ m.r14 = RTOK ∧ m.stack.length = 5

/-- From `m`, the machine halts within at most 8 steps without touching
the tape or invoking any further capability. -/
def HaltsFrozen (buf : List Nat) (ro : Nat → Nat) (wo : Nat → Bool) (m : Machine) : Prop :=
  ∃ k mf, k ≤ 8 ∧ iter buf ro wo k m = StepRes.halted mf ∧
    mf.mem = m.mem ∧ mf.reads = m.reads ∧ mf.writes = m.writes

/-- A single legitimate step: the write counter either stays or makes the
one allowed 0-to-1 transition, and any state that has performed a write is
already on the short frozen path to the exit. -/
def GoodStep (buf : List Nat) (ro : Nat → Nat) (wo : Nat → Bool) (m m1 : Machine) : Prop :=
  (m1.writes = m.writes ∨ (m.writes = 0 ∧ m1.writes = 1)) ∧
  (m1.writes = 1 → HaltsFrozen buf ro wo m1)

/-- The machine runs for `n` steps from `m` without getting stuck, every
step a `GoodStep`. -/
def Safe (buf : List Nat) (ro : Nat → Nat) (wo : Nat → Bool) : Nat → Machine → Prop
  | 0, _ => True
  | n + 1, m =>
    step buf ro wo m ≠ StepRes.stuck ∧
    ∀ m1, step buf ro wo m = StepRes.running m1 →
      GoodStep buf ro wo m m1 ∧ Safe buf ro wo n m1

/-- An explicit `j`-step good run from `m` to `m1`. -/
def IterGood (buf : List Nat) (ro : Nat → Nat) (wo : Nat → Bool) : Nat → Machine → Machine → Prop
  | 0, m, m1 => m1 = m
  | j + 1, m, m1 => ∃ m2, step buf ro wo m = StepRes.running m2 ∧
      GoodStep buf ro wo m m2 ∧ IterGood buf ro wo j m2 m1

/-- Fragment postcondition: control is at `r`, the write counter and the
capability registers and the stack are untouched. -/
def Post (m : Machine) (r : Nat) (m1 : Machine) : Prop :=
  m1.rip = r ∧ m1.writes = m.writes ∧ m1.r12 = m.r12 ∧ m1.r14 = m.r14 ∧
    m1.stack = m.stack ∧ m1.reads ≥ m.reads

/-! ## Layout of the generated fragments in the final buffer -/

/-- `buf` agrees with `c` on every position from `a` up to the length of
`c`.  The code generator only ever appends, or patches a placeholder that
lies beyond the region already fixed, so each intermediate buffer agrees
with the final one on the region holding the fragments it has emitted. -/
def AgreeFrom (a : Nat) (xs buf : List Nat) : Prop :=
  ∀ i, a ≤ i → i < xs.length → buf[i]? = xs[i]?

/-- The fragments the generator laid down between buffer offsets `p` and
`q`, with `E` the shared exit offset: one constructor per emitted source
instruction, carrying the exact bytes (including the resolved
displacements) and the layout of the rest. -/
inductive Laid (buf : List Nat) (E : Nat) : Nat → Nat → Prop
  | nil (p : Nat) : Laid buf E p p
  | left (p q : Nat) (h : BytesAt buf p LEFT)
      (t : Laid buf E (p + 4) q) : Laid buf E p q
  | right (p q : Nat) (h : BytesAt buf p RIGHT)
      (t : Laid buf E (p + 4) q) : Laid buf E p q
  | sub (p q : Nat) (h : BytesAt buf p SUBTRACT)
      (t : Laid buf E (p + 6) q) : Laid buf E p q
  | add (p q : Nat) (h : BytesAt buf p ADD)
      (t : Laid buf E (p + 6) q) : Laid buf E p q
  | read (p q : Nat)
      (h : BytesAt buf p (READ ++ [0x0f, 0x8c] ++
        le32 (toU32 ((E : Int) - ((p : Int) + 16))) ++ READ_STORE))
      (t : Laid buf E (p + 19) q) : Laid buf E p q
  | write (p q : Nat)
      (h : BytesAt buf p (WRITE ++ [0x0f, 0x85] ++
        le32 (toU32 ((E : Int) - ((p : Int) + 20)))))
      (t : Laid buf E (p + 20) q) : Laid buf E p q
  | loop (p b q : Nat)
      (hhead : BytesAt buf p (LOOP_CMP ++ [0x0f, 0x84] ++
        le32 (toU32 (((b : Int) + 5) - ((p : Int) + 9)))))
      (hbody : Laid buf E (p + 9) b)
      (hback : BytesAt buf b ([0xe9] ++ le32 (toU32 ((p : Int) - ((b : Int) + 5)))))
      (t : Laid buf E (b + 5) q) : Laid buf E p q

/-- The three pieces a completed loop leaves in the buffer: the head
(zero-test plus the patched `je` past the body), the laid body, and the
back-jump to the head. -/
def LoopLaid (buf : List Nat) (E p b : Nat) : Prop :=
  BytesAt buf p (LOOP_CMP ++ ([0x0f, 0x84] ++
    le32 (toU32 (((b : Int) + 5) - ((p : Int) + 9))))) ∧
  Laid buf E (p + 9) b ∧
  BytesAt buf b ([0xe9] ++ le32 (toU32 ((p : Int) - ((b : Int) + 5))))

/-- The compiled code of the program `.`. -/
def dotBuf : List Nat :=
  [65, 84, 65, 85, 65, 86, 85, 83, 73, 137, 252, 73, 137, 245, 73, 137, 214,
   72, 137, 205, 76, 137, 195, 235, 9, 91, 93, 65, 94, 65, 93, 65, 92, 195,
   76, 137, 239, 72, 15, 182, 51, 65, 255, 212, 72, 131, 248, 1,
   15, 133, 227, 255, 255, 255, 233, 222, 255, 255, 255]

theorem find_loop_end_lt_length {s : List Char} {level : Int} {j : Nat}
    (h : find_loop_end s level = some j) : j < s.length := by
  induction s generalizing level j with
  | nil => simp [find_loop_end] at h
  | cons c rest ih =>
    simp only [find_loop_end] at h
    by_cases hc : c = '['
    · simp only [hc, if_pos rfl] at h
      rcases Option.map_eq_some'.mp (by simpa using h) with ⟨j', hj', rfl⟩
      have := ih hj'
      simp; omega
    · by_cases hc2 : c = ']'
      · simp only [hc, hc2, if_neg, if_pos rfl] at h
        by_cases hl : level - 1 = 0
        · simp only [if_pos hl] at h
          cases h; simp
        · simp only [if_neg hl] at h
          rcases Option.map_eq_some'.mp h with ⟨j', hj', rfl⟩
          have := ih hj'
          simp; omega
      · simp only [if_neg hc, if_neg hc2] at h
        rcases Option.map_eq_some'.mp h with ⟨j', hj', rfl⟩
        have := ih hj'
        simp; omega

/-! ## Arithmetic facts about the displacement encoding -/

theorem toU32_lt (z : Int) : toU32 z < U32 := by
  simp only [toU32, U32]
  omega

theorem sint32_toU32 (d : Int) (h1 : -(2 ^ 31) ≤ d) (h2 : d < 2 ^ 31) :
    sint32 (toU32 d) = d := by
  simp only [sint32, toU32, U32]
  split <;> omega

theorem decodeLE32_le32 (v : Nat) (h : v < U32) :
    decodeLE32 (v % 256) (v / 256 % 256) (v / 65536 % 256) (v / 16777216 % 256) = v := by
  simp only [decodeLE32, U32] at *
  omega

theorem sint32_decode_le32_toU32 (d : Int) (h1 : -(2 ^ 31) ≤ d) (h2 : d < 2 ^ 31) :
    sint32 (decodeLE32 (toU32 d % 256) (toU32 d / 256 % 256)
      (toU32 d / 65536 % 256) (toU32 d / 16777216 % 256)) = d := by
  rw [decodeLE32_le32 _ (toU32_lt d)]
  exact sint32_toU32 d h1 h2

/-- C4: every relocation written by the patcher stores
`target - (field_offset + 4)` as four little-endian two's-complement
bytes.  For `add_jne_to_exit` and `add_jl_to_exit` the displacement field
starts two opcode bytes after the current end of the buffer; for
`add_jmp_to_offset` it starts one opcode byte after. -/
theorem c4_reloc_displacements (target : Nat) (code : List Nat)
    (hcode : code.length + 6 ≤ 2 ^ 31) (htarget : target < 2 ^ 31) :
    (∃ d, add_jne_to_exit target code = code ++ [0x0f, 0x85] ++ le32 d ∧
      sint32 d = (target : Int) - (((code.length + 2 : Nat) : Int) + 4)) ∧
    (∃ d, add_jl_to_exit target code = code ++ [0x0f, 0x8c] ++ le32 d ∧
      sint32 d = (target : Int) - (((code.length + 2 : Nat) : Int) + 4)) ∧
    (∃ d, add_jmp_to_offset target code = code ++ [0xe9] ++ le32 d ∧
      sint32 d = (target : Int) - (((code.length + 1 : Nat) : Int) + 4)) := by
  refine ⟨⟨toU32 ((target : Int) - (((code.length + 2 : Nat) : Int) + 4)), ?_, ?_⟩,
          ⟨toU32 ((target : Int) - (((code.length + 2 : Nat) : Int) + 4)), ?_, ?_⟩,
          ⟨toU32 ((target : Int) - (((code.length + 1 : Nat) : Int) + 4)), ?_, ?_⟩⟩
  · simp [add_jne_to_exit]
  · exact sint32_toU32 _ (by push_cast; omega) (by push_cast; omega)
  · simp [add_jl_to_exit]
  · exact sint32_toU32 _ (by push_cast; omega) (by push_cast; omega)
  · simp [add_jmp_to_offset]
  · exact sint32_toU32 _ (by push_cast; omega) (by push_cast; omega)

theorem depth_zero (L : Int) (s : List Char) : depth L s 0 = L := by
  simp [depth]

theorem depth_nil (L : Int) (k : Nat) : depth L [] k = L := by
  simp [depth]

theorem depth_succ (L : Int) (c : Char) (rest : List Char) (k : Nat) :
    depth L (c :: rest) (k + 1) = depth (L + bdelta c) rest k := by
  simp [depth]
  ring

/-- One step of the characterization: when `find_loop_end` on `c :: rest`
defers to `rest` at level `L' = L + bdelta c` and shifts the index by one,
the depth characterization transfers. -/
theorem find_shift (c : Char) (rest : List Char) (L L' : Int)
    (hL : 1 ≤ L) (hL' : 1 ≤ L')
    (hdelta : L' = L + bdelta c)
    (hfind : find_loop_end (c :: rest) L = (find_loop_end rest L').map (· + 1))
    (IH1 : ∀ j, find_loop_end rest L' = some j ↔
      j < rest.length ∧ depth L' rest (j + 1) = 0 ∧ ∀ k, k ≤ j → depth L' rest k ≠ 0)
    (IH2 : find_loop_end rest L' = none ↔
      ∀ k, k ≤ rest.length → depth L' rest k ≠ 0) :
    (∀ j, find_loop_end (c :: rest) L = some j ↔
      j < (c :: rest).length ∧ depth L (c :: rest) (j + 1) = 0 ∧
        ∀ k, k ≤ j → depth L (c :: rest) k ≠ 0) ∧
    (find_loop_end (c :: rest) L = none ↔
      ∀ k, k ≤ (c :: rest).length → depth L (c :: rest) k ≠ 0) := by
  have hstep : ∀ k, depth L (c :: rest) (k + 1) = depth L' rest k := by
    intro k
    rw [depth_succ, hdelta]
  constructor
  · intro j
    rw [hfind]
    constructor
    · intro h
      rcases Option.map_eq_some'.mp h with ⟨j', hj', rfl⟩
      obtain ⟨hlt, hdep, hmin⟩ := (IH1 j').mp hj'
      refine ⟨by simp; omega, ?_, ?_⟩
      · rw [hstep]
        exact hdep
      · intro k hk
        rcases k with _ | k
        · rw [depth_zero]; omega
        · rw [hstep]
          exact hmin k (by omega)
    · rintro ⟨hlt, hdep, hmin⟩
      rcases j with _ | j'
      · exfalso
        rw [hstep, depth_zero] at hdep
        omega
      · have hj' : find_loop_end rest L' = some j' := by
          refine (IH1 j').mpr ⟨by simp at hlt; omega, ?_, ?_⟩
          · rw [hstep] at hdep
            exact hdep
          · intro k hk
            have := hmin (k + 1) (by omega)
            rw [hstep] at this
            exact this
        rw [hj']
        rfl
  · rw [hfind, Option.map_eq_none', IH2]
    constructor
    · intro h k hk
      rcases k with _ | k
      · rw [depth_zero]; omega
      · rw [hstep]
        exact h k (by simp at hk; omega)
    · intro h k hk
      have := h (k + 1) (by simp; omega)
      rw [hstep] at this
      exact this

theorem find_loop_end_spec (s : List Char) : ∀ L : Int, 1 ≤ L →
    (∀ j, (find_loop_end s L = some j ↔
      j < s.length ∧ depth L s (j + 1) = 0 ∧ ∀ k, k ≤ j → depth L s k ≠ 0)) ∧
    (find_loop_end s L = none ↔ ∀ k, k ≤ s.length → depth L s k ≠ 0) := by
  induction s with
  | nil =>
    intro L hL
    constructor
    · intro j
      simp [find_loop_end]
    · simp only [find_loop_end, List.length_nil, depth_nil]
      constructor
      · intro _ k _
        omega
      · intro _
        trivial
  | cons c rest ih =>
    intro L hL
    by_cases hc : c = '['
    · subst hc
      have IH := ih (L + 1) (by omega)
      exact find_shift '[' rest L (L + 1) hL (by omega) (by simp [bdelta])
        (by simp [find_loop_end]) IH.1 IH.2
    · by_cases hc2 : c = ']'
      · subst hc2
        by_cases hL1 : L = 1
        · subst hL1
          have hone : find_loop_end (']' :: rest) 1 = some 0 := by
            simp [find_loop_end]
          constructor
          · intro j
            rw [hone]
            constructor
            · intro h
              have hj : j = 0 := (Option.some_inj.mp h).symm
              subst hj
              refine ⟨by simp, ?_, ?_⟩
              · rw [depth_succ, depth_zero]
                simp [bdelta]
              · intro k hk
                have hk0 : k = 0 := by omega
                subst hk0
                rw [depth_zero]
                norm_num
            · rintro ⟨hlt, hdep, hmin⟩
              rcases j with _ | j'
              · rfl
              · exfalso
                have := hmin 1 (by omega)
                rw [depth_succ, depth_zero] at this
                simp [bdelta] at this
          · rw [hone]
            constructor
            · intro h
              exact absurd h (by simp)
            · intro h
              exfalso
              have := h 1 (by simp)
              rw [depth_succ, depth_zero] at this
              simp [bdelta] at this
        · have IH := ih (L - 1) (by omega)
          refine find_shift ']' rest L (L - 1) hL (by omega) (by simp [bdelta]; ring) ?_ IH.1 IH.2
          simp only [find_loop_end]
          rw [if_neg (show ¬(']' = '[') by decide)]
          simp only [if_true]
          rw [if_neg (by omega : ¬(L - 1 = 0))]
      · have IH := ih L hL
        refine find_shift c rest L L hL hL (by simp [bdelta, hc, hc2]) ?_ IH.1 IH.2
        simp only [find_loop_end]
        rw [if_neg hc, if_neg hc2]

/-- C6: `find_loop_end` tracks a nesting depth that starts at 1, is
incremented on each `[` and decremented on each `]`, and returns the offset
of the character at which the depth first reaches 0; if the source ends
before the depth reaches 0, it reports not-found. -/
theorem c6_find_loop_end_depth (s : List Char) :
    (∀ j, (find_loop_end s 1 = some j ↔
      j < s.length ∧ depth 1 s (j + 1) = 0 ∧ ∀ k, k ≤ j → depth 1 s k ≠ 0)) ∧
    (find_loop_end s 1 = none ↔ ∀ k, k ≤ s.length → depth 1 s k ≠ 0) :=
  find_loop_end_spec s 1 (by norm_num)

theorem BufExt.refl (c : List Nat) : BufExt c c := ⟨[], by simp⟩

theorem bufExt_append (c u : List Nat) : BufExt c (c ++ u) := ⟨u, rfl⟩

theorem BufExt.trans {a b c : List Nat} (h1 : BufExt a b) (h2 : BufExt b c) :
    BufExt a c := by
  obtain ⟨t1, rfl⟩ := h1
  obtain ⟨t2, rfl⟩ := h2
  exact ⟨t1 ++ t2, by simp⟩

theorem bufExt_length {a b : List Nat} (h : BufExt a b) : a.length ≤ b.length := by
  obtain ⟨t, rfl⟩ := h
  simp

theorem add_jne_to_exit_bufExt (e : Nat) (c : List Nat) :
    BufExt c (add_jne_to_exit e c) := by
  refine BufExt.trans (bufExt_append c [0x0f, 0x85]) ?_
  exact bufExt_append _ _

theorem add_jl_to_exit_bufExt (e : Nat) (c : List Nat) :
    BufExt c (add_jl_to_exit e c) := by
  refine BufExt.trans (bufExt_append c [0x0f, 0x8c]) ?_
  exact bufExt_append _ _

theorem add_jmp_to_offset_bufExt (o : Nat) (c : List Nat) :
    BufExt c (add_jmp_to_offset o c) := by
  refine BufExt.trans (bufExt_append c [0xe9]) ?_
  exact bufExt_append _ _

theorem replace_range_bufExt (c u repl : List Nat) (d : Nat) :
    BufExt c (replace_range (c.length + d) 6 repl (c ++ u)) := by
  refine ⟨u.take d ++ repl ++ u.drop (d + 6), ?_⟩
  rw [replace_range, List.take_append_eq_append_take, List.drop_append_eq_append_drop]
  rw [List.take_all_of_le (by omega), List.drop_eq_nil_of_le (by omega)]
  rw [show c.length + d - c.length = d from by omega]
  rw [show c.length + d + 6 - c.length = d + 6 from by omega]
  simp

theorem generate_sequence_code_bufExt (exitOfs : Nat) (s : List Char) (code : List Nat) :
    ∀ code1, generate_sequence_code exitOfs s code = some code1 → BufExt code code1 := by
  refine generate_sequence_code.induct exitOfs
    (fun s code => ∀ code1,
      generate_sequence_code exitOfs s code = some code1 → BufExt code code1)
    (fun body code => ∀ code1,
      generate_loop_code exitOfs body code = some code1 → BufExt code code1)
    ?_ ?_ ?_ ?_ ?_ ?_ ?_ ?_ ?_ ?_ ?_ ?_ ?_ s code
  · intro code code1 h
    simp only [generate_sequence_code] at h
    cases h
    exact BufExt.refl _
  · intro rest code ih code1 h
    simp only [generate_sequence_code] at h
    exact BufExt.trans (bufExt_append code LEFT) (ih code1 (by simpa using h))
  · intro rest code _ ih code1 h
    simp only [generate_sequence_code] at h
    exact BufExt.trans (bufExt_append code RIGHT) (ih code1 (by simpa using h))
  · intro rest code _ _ ih code1 h
    simp only [generate_sequence_code] at h
    exact BufExt.trans (bufExt_append code SUBTRACT) (ih code1 (by simpa using h))
  · intro rest code _ _ _ ih code1 h
    simp only [generate_sequence_code] at h
    exact BufExt.trans (bufExt_append code ADD) (ih code1 (by simpa using h))
  · intro rest code _ _ _ _ ih code1 h
    simp only [generate_sequence_code] at h
    refine BufExt.trans (bufExt_append code READ) ?_
    refine BufExt.trans (add_jl_to_exit_bufExt exitOfs (code ++ READ)) ?_
    refine BufExt.trans (bufExt_append _ READ_STORE) ?_
    exact ih code1 (by simpa using h)
  · intro rest code _ _ _ _ _ ih code1 h
    simp only [generate_sequence_code] at h
    refine BufExt.trans (bufExt_append code WRITE) ?_
    refine BufExt.trans (add_jne_to_exit_bufExt exitOfs (code ++ WRITE)) ?_
    exact ih code1 (by simpa using h)
  · intro rest code hfind _ _ _ _ _ _ code1 h
    simp [generate_sequence_code, hfind] at h
  · intro rest code j hfind hloop _ _ _ _ _ _ _ code1 h
    simp [generate_sequence_code, hfind, hloop] at h
  · intro rest code j hfind codeL hloop _ _ _ _ _ _ ih2 ih1 code1 h
    simp only [generate_sequence_code, hfind, hloop] at h
    exact BufExt.trans (ih2 codeL hloop) (ih1 code1 (by simpa using h))
  · intro c rest code h1 h2 h3 h4 h5 h6 h7 ih code1 h
    simp only [generate_sequence_code] at h
    rw [if_neg h1, if_neg h2, if_neg h3, if_neg h4, if_neg h5, if_neg h6, if_neg h7] at h
    exact ih code1 h
  · intro body code codeA codeP hnone _ code1 h
    simp only [generate_loop_code] at h
    rw [hnone] at h
    simp at h
  · intro body code codeA codeP codeB hsome ih code1 h
    simp only [generate_loop_code] at h
    rw [hsome] at h
    simp only [Option.some_inj] at h
    have hext : BufExt ((code ++ LOOP_CMP) ++ PLACEHOLDER) codeB :=
      ih codeB hsome
    obtain ⟨t, ht⟩ := hext
    obtain ⟨t2, hjmp2⟩ := add_jmp_to_offset_bufExt code.length codeB
    rw [← h, hjmp2, ht]
    have hshape : ((((code ++ LOOP_CMP) ++ PLACEHOLDER) ++ t) ++ t2) =
        code ++ (LOOP_CMP ++ PLACEHOLDER ++ t ++ t2) := by simp
    rw [hshape]
    rw [show (code ++ LOOP_CMP).length = code.length + 3 from by simp [LOOP_CMP]]
    exact replace_range_bufExt code _ _ 3

/-- `generate_loop_code` also only ever appends to the buffer it is given. -/
theorem generate_loop_code_bufExt (exitOfs : Nat) (body : List Char) (code code1 : List Nat)
    (h : generate_loop_code exitOfs body code = some code1) : BufExt code code1 := by
  simp only [generate_loop_code] at h
  rcases hseq : generate_sequence_code exitOfs body ((code ++ LOOP_CMP) ++ PLACEHOLDER)
    with _ | codeB
  · rw [hseq] at h
    simp at h
  · rw [hseq] at h
    simp only [Option.some_inj] at h
    have hext : BufExt ((code ++ LOOP_CMP) ++ PLACEHOLDER) codeB :=
      generate_sequence_code_bufExt exitOfs body _ codeB hseq
    obtain ⟨t, rfl⟩ := hext
    obtain ⟨t2, hjmp2⟩ := add_jmp_to_offset_bufExt code.length
      ((((code ++ LOOP_CMP) ++ PLACEHOLDER) ++ t))
    rw [← h, hjmp2]
    have hshape : ((((code ++ LOOP_CMP) ++ PLACEHOLDER) ++ t) ++ t2) =
        code ++ (LOOP_CMP ++ PLACEHOLDER ++ t ++ t2) := by simp
    rw [hshape]
    rw [show (code ++ LOOP_CMP).length = code.length + 3 from by simp [LOOP_CMP]]
    exact replace_range_bufExt code _ _ 3

/-- C10: an unmatched `]` at the top level is not an error: the `switch`
in `generate_sequence_code` has no case for it, so it is silently skipped
and contributes no bytes; in particular `init` on the source consisting of
a single `]` builds exactly the code buffer of the empty source. -/
theorem c10_stray_close_skipped :
    (∀ (exitOfs : Nat) (rest : List Char) (code : List Nat),
      generate_sequence_code exitOfs (']' :: rest) code =
        generate_sequence_code exitOfs rest code) ∧
    buildCode [']'] = buildCode [] ∧
    (buildCode [']']).isSome = true := by
  refine ⟨?_, ?_, ?_⟩
  · intro e rest code
    simp [generate_sequence_code]
  · simp [buildCode, generate_sequence_code]
  · simp [buildCode, generate_sequence_code]

/-- On a balanced source, `generate_sequence_code` always succeeds. -/
theorem closed_genSeq : ∀ (n : Nat) (s : List Char), s.length ≤ n →
    allLoopsClosed s = true → ∀ (exitOfs : Nat) (code : List Nat),
    ∃ code1, generate_sequence_code exitOfs s code = some code1 := by
  intro n
  induction n with
  | zero =>
    intro s hs _ e code
    rcases s with _ | ⟨c, rest⟩
    · exact ⟨code, by simp [generate_sequence_code]⟩
    · simp at hs
  | succ n ih =>
    intro s hs h e code
    rcases s with _ | ⟨c, rest⟩
    · exact ⟨code, by simp [generate_sequence_code]⟩
    · have hs' : rest.length ≤ n := by simp at hs; omega
      by_cases hc1 : c = '<'
      · subst hc1
        obtain ⟨c1, h1⟩ := ih rest hs' (by simpa [allLoopsClosed] using h) e (code ++ LEFT)
        exact ⟨c1, by simp [generate_sequence_code, h1]⟩
      · by_cases hc2 : c = '>'
        · subst hc2
          obtain ⟨c1, h1⟩ := ih rest hs' (by simpa [allLoopsClosed] using h) e (code ++ RIGHT)
          exact ⟨c1, by simp [generate_sequence_code, h1]⟩
        · by_cases hc3 : c = '-'
          · subst hc3
            obtain ⟨c1, h1⟩ := ih rest hs' (by simpa [allLoopsClosed] using h) e (code ++ SUBTRACT)
            exact ⟨c1, by simp [generate_sequence_code, h1]⟩
          · by_cases hc4 : c = '+'
            · subst hc4
              obtain ⟨c1, h1⟩ := ih rest hs' (by simpa [allLoopsClosed] using h) e (code ++ ADD)
              exact ⟨c1, by simp [generate_sequence_code, h1]⟩
            · by_cases hc5 : c = ','
              · subst hc5
                obtain ⟨c1, h1⟩ := ih rest hs' (by simpa [allLoopsClosed] using h) e
                  ((add_jl_to_exit e (code ++ READ)) ++ READ_STORE)
                exact ⟨c1, by simp [generate_sequence_code, h1]⟩
              · by_cases hc6 : c = '.'
                · subst hc6
                  obtain ⟨c1, h1⟩ := ih rest hs' (by simpa [allLoopsClosed] using h) e
                    (add_jne_to_exit e (code ++ WRITE))
                  exact ⟨c1, by simp [generate_sequence_code, h1]⟩
                · by_cases hc7 : c = '['
                  · subst hc7
                    rcases hfind : find_loop_end rest 1 with _ | j
                    · exfalso
                      simp [allLoopsClosed, hfind] at h
                    · have hsplit : allLoopsClosed (rest.take j) = true ∧
                          allLoopsClosed (rest.drop (j + 1)) = true := by
                        simpa [allLoopsClosed, hfind] using h
                      obtain ⟨cb, hcb⟩ := ih (rest.take j)
                        (by simp; omega) hsplit.1 e ((code ++ LOOP_CMP) ++ PLACEHOLDER)
                      have hloop : ∃ cl, generate_loop_code e (rest.take j) code = some cl := by
                        simp only [generate_loop_code, hcb]
                        exact ⟨_, rfl⟩
                      obtain ⟨cl, hcl⟩ := hloop
                      obtain ⟨c1, h1⟩ := ih (rest.drop (j + 1))
                        (by simp; omega) hsplit.2 e cl
                      exact ⟨c1, by simp [generate_sequence_code, hfind, hcl, h1]⟩
                  · have h' : allLoopsClosed rest = true := by
                      simpa [allLoopsClosed, hc7] using h
                    obtain ⟨c1, h1⟩ := ih rest hs' h' e code
                    refine ⟨c1, ?_⟩
                    simp only [generate_sequence_code]
                    rw [if_neg hc1, if_neg hc2, if_neg hc3, if_neg hc4, if_neg hc5,
                      if_neg hc6, if_neg hc7]
                    exact h1

/-- On a source with an unmatched `[`, `generate_sequence_code` fails,
the failure propagating through every recursion level. -/
theorem unclosed_genSeq : ∀ (n : Nat) (s : List Char), s.length ≤ n →
    allLoopsClosed s = false → ∀ (exitOfs : Nat) (code : List Nat),
    generate_sequence_code exitOfs s code = none := by
  intro n
  induction n with
  | zero =>
    intro s hs h _ _
    rcases s with _ | ⟨c, rest⟩
    · simp [allLoopsClosed] at h
    · simp at hs
  | succ n ih =>
    intro s hs h e code
    rcases s with _ | ⟨c, rest⟩
    · simp [allLoopsClosed] at h
    · have hs' : rest.length ≤ n := by simp at hs; omega
      by_cases hc1 : c = '<'
      · subst hc1
        have h' := ih rest hs' (by simpa [allLoopsClosed] using h) e (code ++ LEFT)
        simp [generate_sequence_code, h']
      · by_cases hc2 : c = '>'
        · subst hc2
          have h' := ih rest hs' (by simpa [allLoopsClosed] using h) e (code ++ RIGHT)
          simp [generate_sequence_code, h']
        · by_cases hc3 : c = '-'
          · subst hc3
            have h' := ih rest hs' (by simpa [allLoopsClosed] using h) e (code ++ SUBTRACT)
            simp [generate_sequence_code, h']
          · by_cases hc4 : c = '+'
            · subst hc4
              have h' := ih rest hs' (by simpa [allLoopsClosed] using h) e (code ++ ADD)
              simp [generate_sequence_code, h']
            · by_cases hc5 : c = ','
              · subst hc5
                have h' := ih rest hs' (by simpa [allLoopsClosed] using h) e
                  ((add_jl_to_exit e (code ++ READ)) ++ READ_STORE)
                simp [generate_sequence_code, h']
              · by_cases hc6 : c = '.'
                · subst hc6
                  have h' := ih rest hs' (by simpa [allLoopsClosed] using h) e
                    (add_jne_to_exit e (code ++ WRITE))
                  simp [generate_sequence_code, h']
                · by_cases hc7 : c = '['
                  · subst hc7
                    rcases hfind : find_loop_end rest 1 with _ | j
                    · simp [generate_sequence_code, hfind]
                    · have hsplit : allLoopsClosed (rest.take j) = false ∨
                          allLoopsClosed (rest.drop (j + 1)) = false := by
                        have := h
                        simp [allLoopsClosed, hfind] at this
                        rcases Bool.and_eq_false_iff.mp (by simpa [allLoopsClosed, hfind] using h)
                          with h1 | h1
                        · exact Or.inl h1
                        · exact Or.inr h1
                      rcases hsplit with h1 | h1
                      · have hbody := ih (rest.take j) (by simp; omega) h1 e
                          ((code ++ LOOP_CMP) ++ PLACEHOLDER)
                        have hloop : generate_loop_code e (rest.take j) code = none := by
                          simp only [generate_loop_code, hbody]
                        simp [generate_sequence_code, hfind, hloop]
                      · rcases hclosed : allLoopsClosed (rest.take j) with _ | _
                        · have hbody := ih (rest.take j) (by simp; omega) hclosed e
                            ((code ++ LOOP_CMP) ++ PLACEHOLDER)
                          have hloop : generate_loop_code e (rest.take j) code = none := by
                            simp only [generate_loop_code, hbody]
                          simp [generate_sequence_code, hfind, hloop]
                        · obtain ⟨cb, hcb⟩ := closed_genSeq (rest.take j).length (rest.take j)
                            le_rfl hclosed e ((code ++ LOOP_CMP) ++ PLACEHOLDER)
                          have hloop : ∃ cl, generate_loop_code e (rest.take j) code = some cl := by
                            simp only [generate_loop_code, hcb]
                            exact ⟨_, rfl⟩
                          obtain ⟨cl, hcl⟩ := hloop
                          have hrest := ih (rest.drop (j + 1)) (by simp; omega) h1 e cl
                          simp [generate_sequence_code, hfind, hcl, hrest]
                  · have h' : allLoopsClosed rest = false := by
                      simpa [allLoopsClosed, hc7] using h
                    have h1 := ih rest hs' h' e code
                    simp only [generate_sequence_code]
                    rw [if_neg hc1, if_neg hc2, if_neg hc3, if_neg hc4, if_neg hc5,
                      if_neg hc6, if_neg hc7]
                    exact h1

/-! ## The shape of a generated loop (C5) -/

theorem add_jmp_to_offset_length (o : Nat) (c : List Nat) :
    (add_jmp_to_offset o c).length = c.length + 5 := by
  simp [add_jmp_to_offset, le32]

theorem LOOP_CMP_length : LOOP_CMP.length = 3 := rfl

theorem replace_placeholder (a rest2 patch : List Nat) :
    replace_range a.length 6 patch ((a ++ PLACEHOLDER) ++ rest2) = (a ++ patch) ++ rest2 := by
  rw [replace_range, List.append_assoc a PLACEHOLDER rest2]
  rw [List.take_left, List.drop_append_eq_append_drop]
  rw [List.drop_eq_nil_of_le (by simp), show a.length + 6 - a.length = 6 from by omega]
  simp [PLACEHOLDER]

/-- C5: for every loop body whose inner sequence generation succeeds,
`generate_loop_code` emits, in order, the zero test, the six-byte
placeholder, the body, and the unconditional jump back to the test; the
final buffer has the placeholder overwritten with a `je` (branch if the
tape byte is zero) whose displacement resolves to the offset immediately
following the back-jump. -/
theorem c5_generate_loop_shape (exitOfs : Nat) (body : List Char) (code0 code1 : List Nat)
    (h : generate_sequence_code exitOfs body ((code0 ++ LOOP_CMP) ++ PLACEHOLDER) = some code1)
    (hbound : code1.length + 5 < 2 ^ 31) :
    ∃ frag,
      code1 = ((code0 ++ LOOP_CMP) ++ PLACEHOLDER) ++ frag ∧
      generate_loop_code exitOfs body code0 = some
        (((code0 ++ LOOP_CMP)
          ++ ([0x0f, 0x84] ++ le32 (toU32 (((code1.length : Int) + 5) - ((code0.length : Int) + 9)))))
          ++ (frag ++ ([0xe9] ++ le32 (toU32 ((code0.length : Int) - (((code1.length : Int) + 1) + 4)))))) ∧
      ((code0.length : Int) + 3 + 6) +
          sint32 (toU32 (((code1.length : Int) + 5) - ((code0.length : Int) + 9)))
        = (code1.length : Int) + 5 := by
  obtain ⟨frag, hfrag⟩ := generate_sequence_code_bufExt exitOfs body _ code1 h
  have hlen : code0.length + 9 ≤ code1.length := by
    rw [hfrag]
    simp [LOOP_CMP, PLACEHOLDER]
  refine ⟨frag, hfrag, ?_, ?_⟩
  · simp only [generate_loop_code, h, Option.some_inj]
    have e1 : ((code1 ++ [0xe9]).length : Int) + 4 = ((code1.length : Int) + 1) + 4 := by
      simp only [List.length_append, List.length_cons, List.length_nil]
      push_cast
      ring
    have hjmp : add_jmp_to_offset code0.length code1 =
        code1 ++ ([0xe9] ++ le32 (toU32 ((code0.length : Int) - (((code1.length : Int) + 1) + 4)))) := by
      rw [add_jmp_to_offset, List.append_assoc, e1]
    have e2 : ((add_jmp_to_offset code0.length code1).length : Int) = (code1.length : Int) + 5 := by
      rw [add_jmp_to_offset_length]
      push_cast
      ring
    have e3 : (((code0 ++ LOOP_CMP).length : Nat) : Int) + 2 + 4 = (code0.length : Int) + 9 := by
      simp [LOOP_CMP]
      push_cast
      ring
    rw [e2, e3, hjmp, hfrag,
      List.append_assoc ((code0 ++ LOOP_CMP) ++ PLACEHOLDER) frag,
      replace_placeholder (code0 ++ LOOP_CMP)]
  · rw [sint32_toU32]
    · ring
    · push_cast
      omega
    · push_cast
      omega

/-- Witness for C5: the empty loop body. -/
theorem c5_generate_loop_shape_witness :
    ∃ frag,
      (([] : List Nat) ++ LOOP_CMP) ++ PLACEHOLDER =
        ((([] : List Nat) ++ LOOP_CMP) ++ PLACEHOLDER) ++ frag ∧
      generate_loop_code 25 [] [] = some
        (((([] : List Nat) ++ LOOP_CMP)
          ++ ([0x0f, 0x84] ++ le32 (toU32 (((9 : Int) + 5) - ((0 : Int) + 9)))))
          ++ (frag ++ ([0xe9] ++ le32 (toU32 ((0 : Int) - (((9 : Int) + 1) + 4)))))) ∧
      (((0 : Int) + 3 + 6) + sint32 (toU32 (((9 : Int) + 5) - ((0 : Int) + 9)))
        = (9 : Int) + 5) :=
  c5_generate_loop_shape 25 [] [] (([] ++ LOOP_CMP) ++ PLACEHOLDER)
    (by simp [generate_sequence_code]) (by simp [LOOP_CMP, PLACEHOLDER])

/-! ## `init` level results (C3, C7, C8) -/

theorem buildCode_some_of_closed (s : List Char) (h : allLoopsClosed s = true) :
    ∃ b, buildCode s = some b := by
  obtain ⟨c1, hc1⟩ := closed_genSeq s.length s le_rfl h exit_offset
    (START ++ [0xeb, EXIT.length] ++ EXIT)
  refine ⟨c1 ++ [0xe9] ++ le32 (toU32 ((exit_offset : Int) - ((c1.length : Int) + 1 + 4))), ?_⟩
  simp only [buildCode, hc1, Option.some_inj]
  rw [add_jmp_to_offset]
  simp [List.append_assoc]

/-- C8: for every syntactically balanced source (every `[` matched), if
the mapping call returns a non-`NULL` address and the protection
transition succeeds, `init` returns success and the requested size of the
executable region is a positive integer multiple of the page size. -/
theorem c8_init_balanced_success (s : List Char) (pagesize : Nat) (mmapRet : Int)
    (hclosed : allLoopsClosed s = true) (hpage : 0 < pagesize) (hmmap : mmapRet ≠ 0) :
    (init pagesize mmapRet true s).1 = InitResult.ok ∧
    ∃ k, 0 < k ∧ (init pagesize mmapRet true s).2.requiredMemory = k * pagesize := by
  obtain ⟨b, hb⟩ := buildCode_some_of_closed s hclosed
  refine ⟨?_, ⟨b.length / pagesize + 1, ?_, ?_⟩⟩
  · simp [init, hb, hmmap]
  · exact Nat.succ_pos _
  · simp [init, hb, hmmap]

/-- Witness for C8: the balanced one-loop program `[]`. -/
theorem c8_init_balanced_success_witness :
    (init 4096 7 true ['[', ']']).1 = InitResult.ok ∧
    ∃ k, 0 < k ∧ (init 4096 7 true ['[', ']']).2.requiredMemory = k * 4096 :=
  c8_init_balanced_success ['[', ']'] 4096 7
    (by simp [allLoopsClosed, find_loop_end]) (by norm_num) (by norm_num)

/-- C7: on a source with an unmatched `[`, `init` fails: it returns the
generation failure, `mmap` is never invoked, no memory is requested, and
the object still holds the `NULL` executable pointer installed by the
constructor. -/
theorem c7_unmatched_open_fails (s : List Char) (pagesize : Nat) (mmapRet : Int)
    (mprotectOk : Bool) (h : allLoopsClosed s = false) :
    init pagesize mmapRet mprotectOk s = (InitResult.errGenerate, ⟨0, false, 0⟩) := by
  have hgen := unclosed_genSeq s.length s le_rfl h exit_offset
    (START ++ [0xeb, EXIT.length] ++ EXIT)
  have hgen' : generate_sequence_code exit_offset s (START ++ 0xeb :: EXIT.length :: EXIT) = none := by
    simpa using hgen
  simp [init, buildCode, hgen, hgen']

/-- Witness for C7: the unmatched `[`. -/
theorem c7_unmatched_open_fails_witness :
    init 4096 7 true ['['] = (InitResult.errGenerate, ⟨0, false, 0⟩) :=
  c7_unmatched_open_fails ['['] 4096 7 true (by simp [allLoopsClosed, find_loop_end])

/-- C3 (bug evidence): POSIX `mmap` signals failure by returning
`MAP_FAILED`, i.e. `(void *) -1`, never `NULL`, but `init` compares the
result against `NULL`.  With `mmap` failing (returning `-1`), the failure
is not detected: `init` proceeds, and the run either misreports the error
as an `mprotect` failure or even reports success, in both cases retaining
`executable_ = MAP_FAILED`; the result `errMmap` is unreachable whenever
`mmap` returns `MAP_FAILED`. -/
theorem c3_mmap_failure_undetected :
    init 4096 (-1) false [] = (InitResult.errMprotect, ⟨-1, true, 4096⟩) ∧
    init 4096 (-1) true [] = (InitResult.ok, ⟨-1, true, 4096⟩) ∧
    (∀ (pagesize : Nat) (mprotectOk : Bool) (s : List Char),
      (init pagesize (-1) mprotectOk s).1 ≠ InitResult.errMmap) := by
  have hb : buildCode [] = some (START ++ [0xeb, EXIT.length] ++ EXIT ++ [0xe9] ++
      le32 (toU32 ((exit_offset : Int) - (((START ++ [0xeb, EXIT.length] ++ EXIT).length : Int) + 1 + 4)))) := by
    simp only [buildCode, generate_sequence_code, Option.some_inj]
    rw [add_jmp_to_offset]
    simp [List.append_assoc]
    ring_nf
  refine ⟨?_, ?_, ?_⟩
  · rw [init, hb]
    norm_num [START, EXIT, le32]
  · rw [init, hb]
    norm_num [START, EXIT, le32]
  · intro p mp s
    rcases hbs : buildCode s with _ | b
    · simp [init, hbs]
    · cases mp <;> simp [init, hbs]

/-- Witness for C4 at a concrete target and buffer. -/
theorem c4_reloc_displacements_witness :
    ((0x90 :: List.nil).length + 6 ≤ 2 ^ 31) ∧
    (∃ d, add_jne_to_exit 25 [0x90] = [0x90] ++ [0x0f, 0x85] ++ le32 d ∧
      sint32 d = (25 : Int) - ((((0x90 :: List.nil).length + 2 : Nat) : Int) + 4)) :=
  ⟨by norm_num, (c4_reloc_displacements 25 [0x90] (by norm_num) (by norm_num)).1⟩

/-- C1 (bug evidence): the code emitted for `,` tests the read result with
`cmp $0x0,%rax` followed by `jl` — a *signed-less-than* branch — although
the comment above the `READ` template says `if (rax == 0) goto exit`.  A
read capability that always returns the end-of-input sentinel 0 therefore
does **not** stop execution at the first `,`: the branch to exit is not
taken (0 is not less than 0), the store executes, and every subsequent
instruction runs.  Compiling `,+` and running it with the always-0 read
capability on a zeroed tape halts only at the end-of-program jump, with
the `+` after the `,` having executed (the current cell ends at 1, not 0)
and exactly one read performed. -/
theorem c1_eof_sentinel_not_detected :
    buildCode [',', '+'] = some commaPlusBuf ∧
    finalMem commaPlusBuf (fun _ => 0) (fun _ => true) 40
      (initMachine 0 0 0 (fun _ => 0)) 0 = some 1 ∧
    finalReads commaPlusBuf (fun _ => 0) (fun _ => true) 40
      (initMachine 0 0 0 (fun _ => 0)) = some 1 := by
  refine ⟨?_, by rfl, by rfl⟩
  simp [buildCode, generate_sequence_code, add_jl_to_exit, add_jmp_to_offset,
    commaPlusBuf, START, EXIT, READ, READ_STORE, ADD, le32, toU32, U32, exit_offset]

/-- C2 (bug evidence): the store emitted for `,` is `mov %rax,(%rbx)`
(`READ_STORE`), an eight-byte store, although the specification says the
result *byte* is stored at the tape pointer.  The seven cells after the
tape pointer are overwritten with the upper bytes of `%rax`.  Compiling
`,` and running it with a read capability returning 65 on a tape whose
cell 1 initially holds 5 leaves cell 0 = 65 but also clobbers cell 1 down
to 0 — the claim says every cell other than the addressed one is
unchanged. -/
theorem c2_read_store_clobbers_neighbours :
    buildCode [','] = some commaBuf ∧
    (fun a : Nat => if a = 1 then 5 else 0) 1 = 5 ∧
    finalMem commaBuf (fun _ => 65) (fun _ => true) 40
      (initMachine 0 0 0 (fun a => if a = 1 then 5 else 0)) 0 = some 65 ∧
    finalMem commaBuf (fun _ => 65) (fun _ => true) 40
      (initMachine 0 0 0 (fun a => if a = 1 then 5 else 0)) 1 = some 0 := by
  refine ⟨?_, by rfl, by rfl, by rfl⟩
  simp [buildCode, generate_sequence_code, add_jl_to_exit, add_jmp_to_offset,
    commaBuf, START, EXIT, READ, READ_STORE, le32, toU32, U32, exit_offset]

theorem bytesAt_bound {buf bs : List Nat} {p : Nat} (h : BytesAt buf p bs)
    (hne : bs ≠ []) : p + bs.length ≤ buf.length := by
  rcases bs with _ | ⟨b, bs'⟩
  · exact absurd rfl hne
  · have hi : bs'.length < (b :: bs').length := by simp
    have := h bs'.length hi
    rw [List.getElem?_eq_getElem hi] at this
    have hlt := (List.getElem?_eq_some.mp this).1
    simp at hlt ⊢
    omega

theorem bytesAt_drop {buf bs : List Nat} {p : Nat} (h : BytesAt buf p bs) :
    buf.drop p = bs ++ buf.drop (p + bs.length) := by
  induction bs generalizing p with
  | nil => simp
  | cons b bs' ih =>
    have h0 := h 0 (by simp)
    simp only [List.getElem?_cons_zero, Nat.add_zero] at h0
    have hlt := (List.getElem?_eq_some.mp h0).1
    have hget : buf[p] = b := by
      rw [List.getElem?_eq_getElem hlt] at h0
      exact Option.some_inj.mp h0
    have htail : BytesAt buf (p + 1) bs' := by
      intro i hi
      have := h (i + 1) (by simp; omega)
      rw [show p + (i + 1) = p + 1 + i from by omega] at this
      simpa using this
    rw [List.drop_eq_getElem_cons hlt, hget, ih htail]
    simp
    rw [show p + 1 + bs'.length = p + (bs'.length + 1) from by omega]

theorem bytesAt_split {buf xs ys : List Nat} {p : Nat}
    (h : BytesAt buf p (xs ++ ys)) :
    BytesAt buf p xs ∧ BytesAt buf (p + xs.length) ys := by
  constructor
  · intro i hi
    have := h i (by simp; omega)
    rw [this, List.getElem?_append, if_pos hi]
  · intro i hi
    have := h (xs.length + i) (by simp; omega)
    rw [show p + (xs.length + i) = p + xs.length + i from by omega] at this
    rw [this, List.getElem?_append, if_neg (by omega)]
    simp

theorem bytesAt_bufExt {a b bs : List Nat} {p : Nat}
    (h : BytesAt a p bs) (hext : BufExt a b) : BytesAt b p bs := by
  obtain ⟨t, rfl⟩ := hext
  intro i hi
  have hv := h i hi
  have hlt := (List.getElem?_eq_some.mp (by
    rw [hv]
    exact List.getElem?_eq_getElem hi)).1
  rw [List.getElem?_append, if_pos hlt]
  exact hv

theorem bytesAt_here {a bs r : List Nat} : BytesAt (a ++ (bs ++ r)) a.length bs := by
  intro i hi
  rw [List.getElem?_append, if_neg (by omega)]
  rw [show a.length + i - a.length = i from by omega]
  rw [List.getElem?_append, if_pos hi]

theorem bytesAt_here2 {a bs : List Nat} : BytesAt (a ++ bs) a.length bs := by
  intro i hi
  rw [List.getElem?_append, if_neg (by omega)]
  rw [show a.length + i - a.length = i from by omega]

theorem replace_range_getElem_lt {x patch : List Nat} {js i : Nat}
    (hle : js ≤ x.length) (hi : i < js) :
    (replace_range js 6 patch x)[i]? = x[i]? := by
  rw [replace_range, List.getElem?_append, if_pos (by simp; omega)]
  rw [List.getElem?_append, if_pos (by simp; omega)]
  rw [List.getElem?_take, if_pos hi]

theorem replace_range_getElem_mid {x patch : List Nat} {js i : Nat}
    (hle : js ≤ x.length) (hi : i < patch.length) :
    (replace_range js 6 patch x)[js + i]? = patch[i]? := by
  rw [replace_range, List.getElem?_append, if_pos (by simp; omega)]
  rw [List.getElem?_append, if_neg (by first | (simp; omega) | simp | omega)]
  have hjs : (x.take js).length = js := by rw [List.length_take]; omega
  rw [show js + i - (x.take js).length = i from by rw [hjs]; omega]

theorem replace_range_getElem_ge {x patch : List Nat} {js i : Nat}
    (hle : js ≤ x.length) (hp : patch.length = 6) (hi : js + 6 ≤ i) :
    (replace_range js 6 patch x)[i]? = x[i]? := by
  rw [replace_range, List.getElem?_append, if_neg (by simp [hp]; omega)]
  rw [List.getElem?_drop]
  congr 1
  simp [hp]
  try omega

theorem replace_range_length {x patch : List Nat} {js : Nat}
    (hle : js + 6 ≤ x.length) (hp : patch.length = 6) :
    (replace_range js 6 patch x).length = x.length := by
  simp [replace_range, hp]
  omega

/-! ## Decode facts for the emitted templates -/

theorem decode_pushR12 (r : List Nat) : decode (0x41 :: 0x54 :: r) = some Instr.pushR12 := rfl

theorem decode_pushR13 (r : List Nat) : decode (0x41 :: 0x55 :: r) = some Instr.pushR13 := rfl

theorem decode_pushR14 (r : List Nat) : decode (0x41 :: 0x56 :: r) = some Instr.pushR14 := rfl

theorem decode_pushRbp (r : List Nat) : decode (0x55 :: r) = some Instr.pushRbp := rfl

theorem decode_pushRbx (r : List Nat) : decode (0x53 :: r) = some Instr.pushRbx := rfl

theorem decode_movRdiR12 (r : List Nat) : decode (0x49 :: 0x89 :: 0xfc :: r) = some Instr.movRdiR12 := rfl

theorem decode_movRsiR13 (r : List Nat) : decode (0x49 :: 0x89 :: 0xf5 :: r) = some Instr.movRsiR13 := rfl

theorem decode_movRdxR14 (r : List Nat) : decode (0x49 :: 0x89 :: 0xd6 :: r) = some Instr.movRdxR14 := rfl

theorem decode_movRcxRbp (r : List Nat) : decode (0x48 :: 0x89 :: 0xcd :: r) = some Instr.movRcxRbp := rfl

theorem decode_movR8Rbx (r : List Nat) : decode (0x4c :: 0x89 :: 0xc3 :: r) = some Instr.movR8Rbx := rfl

theorem decode_popRbx (r : List Nat) : decode (0x5b :: r) = some Instr.popRbx := rfl

theorem decode_popRbp (r : List Nat) : decode (0x5d :: r) = some Instr.popRbp := rfl

theorem decode_popR14 (r : List Nat) : decode (0x41 :: 0x5e :: r) = some Instr.popR14 := rfl

theorem decode_popR13 (r : List Nat) : decode (0x41 :: 0x5d :: r) = some Instr.popR13 := rfl

theorem decode_popR12 (r : List Nat) : decode (0x41 :: 0x5c :: r) = some Instr.popR12 := rfl

theorem decode_retq (r : List Nat) : decode (0xc3 :: r) = some Instr.retq := rfl

theorem decode_jmp8 (d : Nat) (r : List Nat) : decode (0xeb :: d :: r) = some (Instr.jmp8 d) := rfl

theorem decode_subRbx1 (r : List Nat) : decode (0x48 :: 0x83 :: 0xeb :: 0x01 :: r) = some Instr.subRbx1 := rfl

theorem decode_addRbx1 (r : List Nat) : decode (0x48 :: 0x83 :: 0xc3 :: 0x01 :: r) = some Instr.addRbx1 := rfl

theorem decode_movMemAl (r : List Nat) : decode (0x8a :: 0x03 :: r) = some Instr.movMemAl := rfl

theorem decode_subAl1 (r : List Nat) : decode (0x2c :: 0x01 :: r) = some Instr.subAl1 := rfl

theorem decode_addAl1 (r : List Nat) : decode (0x04 :: 0x01 :: r) = some Instr.addAl1 := rfl

theorem decode_movAlMem (r : List Nat) : decode (0x88 :: 0x03 :: r) = some Instr.movAlMem := rfl

theorem decode_movRbpRdi (r : List Nat) : decode (0x48 :: 0x89 :: 0xef :: r) = some Instr.movRbpRdi := rfl

theorem decode_callR14 (r : List Nat) : decode (0x41 :: 0xff :: 0xd6 :: r) = some Instr.callR14 := rfl

theorem decode_callR12 (r : List Nat) : decode (0x41 :: 0xff :: 0xd4 :: r) = some Instr.callR12 := rfl

theorem decode_cmpRaxImm (i : Nat) (r : List Nat) :
    decode (0x48 :: 0x83 :: 0xf8 :: i :: r) = some (Instr.cmpRaxImm i) := rfl

theorem decode_jl (b0 b1 b2 b3 : Nat) (r : List Nat) :
    decode (0x0f :: 0x8c :: b0 :: b1 :: b2 :: b3 :: r) = some (Instr.jl (decodeLE32 b0 b1 b2 b3)) := rfl

theorem decode_jne (b0 b1 b2 b3 : Nat) (r : List Nat) :
    decode (0x0f :: 0x85 :: b0 :: b1 :: b2 :: b3 :: r) = some (Instr.jne (decodeLE32 b0 b1 b2 b3)) := rfl

theorem decode_je (b0 b1 b2 b3 : Nat) (r : List Nat) :
    decode (0x0f :: 0x84 :: b0 :: b1 :: b2 :: b3 :: r) = some (Instr.je (decodeLE32 b0 b1 b2 b3)) := rfl

theorem decode_jmp32 (b0 b1 b2 b3 : Nat) (r : List Nat) :
    decode (0xe9 :: b0 :: b1 :: b2 :: b3 :: r) = some (Instr.jmp32 (decodeLE32 b0 b1 b2 b3)) := rfl

theorem decode_movRaxMem (r : List Nat) : decode (0x48 :: 0x89 :: 0x03 :: r) = some Instr.movRaxMem := rfl

theorem decode_movR13Rdi (r : List Nat) : decode (0x4c :: 0x89 :: 0xef :: r) = some Instr.movR13Rdi := rfl

theorem decode_movzbq (r : List Nat) : decode (0x48 :: 0x0f :: 0xb6 :: 0x33 :: r) = some Instr.movzbqMemRsi := rfl

theorem decode_cmpbMem0 (r : List Nat) : decode (0x80 :: 0x3b :: 0x00 :: r) = some Instr.cmpbMem0 := rfl

theorem iter_step_running {buf ro wo m m1} (h : step buf ro wo m = StepRes.running m1)
    (n : Nat) : iter buf ro wo (n + 1) m = iter buf ro wo n m1 := by
  simp [iter, h]

theorem iter_step_halted {buf ro wo m mf} (h : step buf ro wo m = StepRes.halted mf)
    (n : Nat) : iter buf ro wo (n + 1) m = StepRes.halted mf := by
  simp [iter, h]

theorem iterGood_single {buf ro wo m m1} (h : step buf ro wo m = StepRes.running m1)
    (hg : GoodStep buf ro wo m m1) : IterGood buf ro wo 1 m m1 :=
  ⟨m1, h, hg, rfl⟩

theorem iterGood_trans {buf ro wo} : ∀ {j1 j2 : Nat} {m m1 m2 : Machine},
    IterGood buf ro wo j1 m m1 → IterGood buf ro wo j2 m1 m2 →
    IterGood buf ro wo (j1 + j2) m m2 := by
  intro j1
  induction j1 with
  | zero =>
    intro j2 m m1 m2 h1 h2
    cases h1
    simpa using h2
  | succ j ih =>
    intro j2 m m1 m2 h1 h2
    obtain ⟨ma, hs, hg, hrest⟩ := h1
    rw [show j + 1 + j2 = (j + j2) + 1 from by omega]
    exact ⟨ma, hs, hg, ih hrest h2⟩

theorem iterGood_safe {buf ro wo} : ∀ {j : Nat} {m m1 : Machine} {n : Nat},
    IterGood buf ro wo j m m1 → Safe buf ro wo n m1 → Safe buf ro wo (j + n) m := by
  intro j
  induction j with
  | zero =>
    intro m m1 n h1 h2
    cases h1
    simpa using h2
  | succ j ih =>
    intro m m1 n h1 h2
    obtain ⟨ma, hs, hg, hrest⟩ := h1
    rw [show j + 1 + n = (j + n) + 1 from by omega]
    refine ⟨(by rw [hs]; intro hc; cases hc), ?_⟩
    intro mb hb
    rw [hs] at hb
    cases hb
    exact ⟨hg, ih hrest h2⟩

theorem iterGood_safe_short {buf ro wo} : ∀ {j : Nat} {m m1 : Machine} {n : Nat},
    IterGood buf ro wo j m m1 → n ≤ j → Safe buf ro wo n m := by
  intro j
  induction j with
  | zero =>
    intro m m1 n _ hn
    have : n = 0 := by omega
    subst this
    trivial
  | succ j ih =>
    intro m m1 n h1 hn
    rcases n with _ | k
    · trivial
    · obtain ⟨ma, hs, hg, hrest⟩ := h1
      refine ⟨(by rw [hs]; intro hc; cases hc), ?_⟩
      intro mb hb
      rw [hs] at hb
      cases hb
      exact ⟨hg, ih hrest (by omega)⟩

theorem iterGood_safe_all {buf ro wo} {j : Nat} {m m1 : Machine} {n N : Nat}
    (hg : IterGood buf ro wo j m m1)
    (hk : ∀ k, k ≤ n → Safe buf ro wo k m1) (hN : N ≤ j + n) :
    Safe buf ro wo N m := by
  rcases le_or_lt N j with h | h
  · exact iterGood_safe_short hg h
  · rw [show N = j + (N - j) from by omega]
    exact iterGood_safe hg (hk (N - j) (by omega))

theorem safe_of_halted {buf ro wo m mf} (h : step buf ro wo m = StepRes.halted mf) :
    ∀ n, Safe buf ro wo n m := by
  intro n
  rcases n with _ | k
  · trivial
  · refine ⟨(by rw [h]; intro hc; cases hc), ?_⟩
    intro m1 h1
    rw [h] at h1
    cases h1

theorem safe_step_cons {buf ro wo m m1} (h : step buf ro wo m = StepRes.running m1)
    (hg : GoodStep buf ro wo m m1) (hs : ∀ n, Safe buf ro wo n m1) :
    ∀ n, Safe buf ro wo n m := by
  intro n
  rcases n with _ | k
  · trivial
  · refine ⟨(by rw [h]; intro hc; cases hc), ?_⟩
    intro mb hb
    rw [h] at hb
    cases hb
    exact ⟨hg, hs k⟩

theorem drop_shift (buf : List Nat) (p k : Nat) :
    buf.drop (p + k) = (buf.drop p).drop k := by
  rw [List.drop_drop, Nat.add_comm]

/-- Executing the epilogue: five pops and a return.  From any machine
sitting at the epilogue with the five prologue values on the stack, the
run halts in six steps without touching the tape, the read counter or the
write counter. -/
theorem epilogue_run (buf : List Nat) (ro : Nat → Nat) (wo : Nat → Bool) (E : Nat)
    (hE : BytesAt buf E EXIT) (m : Machine) (hrip : m.rip = E)
    (hstack : m.stack.length = 5) :
    (∀ n, Safe buf ro wo n m) ∧
      ∃ mf, iter buf ro wo 6 m = StepRes.halted mf ∧ mf.mem = m.mem ∧
        mf.reads = m.reads ∧ mf.writes = m.writes := by
  subst hrip
  obtain ⟨v1, v2, v3, v4, v5, hst⟩ : ∃ a b c d e, m.stack = [a, b, c, d, e] := by
    rcases hms : m.stack with _ | ⟨a, _ | ⟨b, _ | ⟨c, _ | ⟨d, _ | ⟨e, _ | ⟨f, t⟩⟩⟩⟩⟩⟩ <;>
      rw [hms] at hstack <;> simp at hstack
    exact ⟨a, b, c, d, e, rfl⟩

  have hd : buf.drop m.rip =
      0x5b :: 0x5d :: 0x41 :: 0x5e :: 0x41 :: 0x5d :: 0x41 :: 0x5c :: 0xc3 ::
        buf.drop (m.rip + 9) := by
    have := bytesAt_drop hE
    simpa [EXIT] using this
  have hd1 : buf.drop (m.rip + 1) =
      0x5d :: 0x41 :: 0x5e :: 0x41 :: 0x5d :: 0x41 :: 0x5c :: 0xc3 ::
        buf.drop (m.rip + 9) := by
    rw [drop_shift buf m.rip 1, hd]
    rfl
  have hd2 : buf.drop (m.rip + 2) =
      0x41 :: 0x5e :: 0x41 :: 0x5d :: 0x41 :: 0x5c :: 0xc3 :: buf.drop (m.rip + 9) := by
    rw [drop_shift buf m.rip 2, hd]
    rfl
  have hd4 : buf.drop (m.rip + 4) =
      0x41 :: 0x5d :: 0x41 :: 0x5c :: 0xc3 :: buf.drop (m.rip + 9) := by
    rw [drop_shift buf m.rip 4, hd]
    rfl
  have hd6 : buf.drop (m.rip + 6) =
      0x41 :: 0x5c :: 0xc3 :: buf.drop (m.rip + 9) := by
    rw [drop_shift buf m.rip 6, hd]
    rfl
  have hd8 : buf.drop (m.rip + 8) = 0xc3 :: buf.drop (m.rip + 9) := by
    rw [drop_shift buf m.rip 8, hd]
    rfl
  have hs1 : step buf ro wo m = StepRes.running
      { m with rip := m.rip + 1, rbx := v1, stack := [v2, v3, v4, v5] } := by
    rw [step, hd, decode_popRbx, hst]
  have hs2 : step buf ro wo
      { m with rip := m.rip + 1, rbx := v1, stack := [v2, v3, v4, v5] } = StepRes.running
      { m with rip := m.rip + 2, rbx := v1, rbp := v2, stack := [v3, v4, v5] } := by
    rw [step]
    simp only [hd1, decode_popRbp]
  have hs3 : step buf ro wo
      { m with rip := m.rip + 2, rbx := v1, rbp := v2, stack := [v3, v4, v5] } = StepRes.running
      { m with rip := m.rip + 4, rbx := v1, rbp := v2, r14 := v3, stack := [v4, v5] } := by
    rw [step]
    simp only [hd2, decode_popR14]
  have hs4 : step buf ro wo
      { m with rip := m.rip + 4, rbx := v1, rbp := v2, r14 := v3, stack := [v4, v5] } =
      StepRes.running
      { m with rip := m.rip + 6, rbx := v1, rbp := v2, r14 := v3, r13 := v4, stack := [v5] } := by
    rw [step]
    simp only [hd4, decode_popR13]
  have hs5 : step buf ro wo
      { m with rip := m.rip + 6, rbx := v1, rbp := v2, r14 := v3, r13 := v4, stack := [v5] } = StepRes.running
      { m with rip := m.rip + 8, rbx := v1, rbp := v2, r14 := v3, r13 := v4, r12 := v5, stack := [] } := by
    rw [step]
    simp only [hd6, decode_popR12]
  have hs6 : step buf ro wo
      { m with rip := m.rip + 8, rbx := v1, rbp := v2, r14 := v3, r13 := v4, r12 := v5, stack := ([] : List Nat) } = StepRes.halted
      { m with rip := m.rip + 8, rbx := v1, rbp := v2, r14 := v3, r13 := v4, r12 := v5, stack := ([] : List Nat) } := by
    rw [step]
    simp only [hd8, decode_retq]
  have hsafe6 := safe_of_halted hs6
  have hfz6 : HaltsFrozen buf ro wo
      { m with rip := m.rip + 8, rbx := v1, rbp := v2, r14 := v3, r13 := v4, r12 := v5, stack := ([] : List Nat) } := by
    refine ⟨1, _, by omega, iter_step_halted hs6 0, ?_, ?_, ?_⟩ <;> rfl
  have hsafe5 := safe_step_cons hs5 ⟨Or.inl rfl, fun _ => hfz6⟩ hsafe6
  have hfz5 : HaltsFrozen buf ro wo
      { m with rip := m.rip + 6, rbx := v1, rbp := v2, r14 := v3, r13 := v4, stack := [v5] } := by
    refine ⟨2, { m with rip := m.rip + 8, rbx := v1, rbp := v2, r14 := v3, r13 := v4, r12 := v5, stack := ([] : List Nat) }, by omega, ?_, ?_, ?_, ?_⟩
    · rw [show (2 : Nat) = 1 + 1 from rfl, iter_step_running hs5,
        show (1 : Nat) = 0 + 1 from rfl, iter_step_halted hs6]
    · rfl
    · rfl
    · rfl
  have hsafe4 := safe_step_cons hs4 ⟨Or.inl rfl, fun _ => hfz5⟩ hsafe5
  have hfz4 : HaltsFrozen buf ro wo
      { m with rip := m.rip + 4, rbx := v1, rbp := v2, r14 := v3, stack := [v4, v5] } := by
    refine ⟨3, { m with rip := m.rip + 8, rbx := v1, rbp := v2, r14 := v3, r13 := v4, r12 := v5, stack := ([] : List Nat) }, by omega, ?_, ?_, ?_, ?_⟩
    · rw [show (3 : Nat) = 2 + 1 from rfl, iter_step_running hs4,
        show (2 : Nat) = 1 + 1 from rfl, iter_step_running hs5,
        show (1 : Nat) = 0 + 1 from rfl, iter_step_halted hs6]
    · rfl
    · rfl
    · rfl
  have hsafe3 := safe_step_cons hs3 ⟨Or.inl rfl, fun _ => hfz4⟩ hsafe4
  have hfz3 : HaltsFrozen buf ro wo
      { m with rip := m.rip + 2, rbx := v1, rbp := v2, stack := [v3, v4, v5] } := by
    refine ⟨4, { m with rip := m.rip + 8, rbx := v1, rbp := v2, r14 := v3, r13 := v4, r12 := v5, stack := ([] : List Nat) }, by omega, ?_, ?_, ?_, ?_⟩
    · rw [show (4 : Nat) = 3 + 1 from rfl, iter_step_running hs3,
        show (3 : Nat) = 2 + 1 from rfl, iter_step_running hs4,
        show (2 : Nat) = 1 + 1 from rfl, iter_step_running hs5,
        show (1 : Nat) = 0 + 1 from rfl, iter_step_halted hs6]
    · rfl
    · rfl
    · rfl
  have hsafe2 := safe_step_cons hs2 ⟨Or.inl rfl, fun _ => hfz3⟩ hsafe3
  have hfz2 : HaltsFrozen buf ro wo
      { m with rip := m.rip + 1, rbx := v1, stack := [v2, v3, v4, v5] } := by
    refine ⟨5, { m with rip := m.rip + 8, rbx := v1, rbp := v2, r14 := v3, r13 := v4, r12 := v5, stack := ([] : List Nat) }, by omega, ?_, ?_, ?_, ?_⟩
    · rw [show (5 : Nat) = 4 + 1 from rfl, iter_step_running hs2,
        show (4 : Nat) = 3 + 1 from rfl, iter_step_running hs3,
        show (3 : Nat) = 2 + 1 from rfl, iter_step_running hs4,
        show (2 : Nat) = 1 + 1 from rfl, iter_step_running hs5,
        show (1 : Nat) = 0 + 1 from rfl, iter_step_halted hs6]
    · rfl
    · rfl
    · rfl
  have hsafe1 := safe_step_cons hs1 ⟨Or.inl rfl, fun _ => hfz2⟩ hsafe2
  refine ⟨hsafe1, ?_⟩
  refine ⟨{ m with rip := m.rip + 8, rbx := v1, rbp := v2, r14 := v3, r13 := v4, r12 := v5, stack := ([] : List Nat) }, ?_, ?_, ?_, ?_⟩
  · rw [show (6 : Nat) = 5 + 1 from rfl, iter_step_running hs1,
      show (5 : Nat) = 4 + 1 from rfl, iter_step_running hs2,
      show (4 : Nat) = 3 + 1 from rfl, iter_step_running hs3,
      show (3 : Nat) = 2 + 1 from rfl, iter_step_running hs4,
      show (2 : Nat) = 1 + 1 from rfl, iter_step_running hs5,
      show (1 : Nat) = 0 + 1 from rfl, iter_step_halted hs6]
  · rfl
  · rfl
  · rfl

theorem goodStep_no_write {buf ro wo} {m m1 : Machine} (h : m1.writes = m.writes)
    (hw : m.writes = 0) : GoodStep buf ro wo m m1 := by
  refine ⟨Or.inl h, ?_⟩
  intro h1
  rw [h, hw] at h1
  exact absurd h1 (by decide)

theorem exec_LEFT {buf : List Nat} {ro wo} {m : Machine} (hB : BytesAt buf m.rip LEFT)
    (hw : m.writes = 0) :
    ∃ m1, IterGood buf ro wo 1 m m1 ∧ Post m (m.rip + 4) m1 := by
  have hd : buf.drop m.rip = 0x48 :: 0x83 :: 0xeb :: 0x01 :: buf.drop (m.rip + 4) := by
    have := bytesAt_drop hB
    simpa [LEFT] using this
  have hs : step buf ro wo m = StepRes.running
      { m with rip := m.rip + 4, rbx := (m.rbx + (U64 - 1)) % U64 } := by
    rw [step, hd, decode_subRbx1]
  exact ⟨_, iterGood_single hs (goodStep_no_write rfl hw), rfl, rfl, rfl, rfl, rfl, le_rfl⟩

theorem exec_RIGHT {buf : List Nat} {ro wo} {m : Machine} (hB : BytesAt buf m.rip RIGHT)
    (hw : m.writes = 0) :
    ∃ m1, IterGood buf ro wo 1 m m1 ∧ Post m (m.rip + 4) m1 := by
  have hd : buf.drop m.rip = 0x48 :: 0x83 :: 0xc3 :: 0x01 :: buf.drop (m.rip + 4) := by
    have := bytesAt_drop hB
    simpa [RIGHT] using this
  have hs : step buf ro wo m = StepRes.running
      { m with rip := m.rip + 4, rbx := (m.rbx + 1) % U64 } := by
    rw [step, hd, decode_addRbx1]
  exact ⟨_, iterGood_single hs (goodStep_no_write rfl hw), rfl, rfl, rfl, rfl, rfl, le_rfl⟩

theorem step_movMemAl {buf ro wo} {m : Machine}
    (hd : buf.drop m.rip = 0x8a :: 0x03 :: buf.drop (m.rip + 2)) :
    ∃ m1, step buf ro wo m = StepRes.running m1 ∧ m1.rip = m.rip + 2 ∧
      m1.writes = m.writes ∧ m1.r12 = m.r12 ∧ m1.r14 = m.r14 ∧ m1.stack = m.stack ∧
      m1.reads = m.reads ∧ m1.mem = m.mem := by
  refine ⟨{ m with rip := m.rip + 2, rax := m.rax - m.rax % 256 + m.mem (m.rbx % U64) % 256 },
    ?_, rfl, rfl, rfl, rfl, rfl, rfl, rfl⟩
  rw [step, hd, decode_movMemAl]

theorem step_subAl1 {buf ro wo} {m : Machine}
    (hd : buf.drop m.rip = 0x2c :: 0x01 :: buf.drop (m.rip + 2)) :
    ∃ m1, step buf ro wo m = StepRes.running m1 ∧ m1.rip = m.rip + 2 ∧
      m1.writes = m.writes ∧ m1.r12 = m.r12 ∧ m1.r14 = m.r14 ∧ m1.stack = m.stack ∧
      m1.reads = m.reads ∧ m1.mem = m.mem := by
  refine ⟨{ m with rip := m.rip + 2, rax := m.rax - m.rax % 256 + (m.rax % 256 + 255) % 256, zf := decide ((m.rax % 256 + 255) % 256 = 0), ltf := decide ((128 ≤ (m.rax % 256 + 255) % 256) ≠ (m.rax % 256 = 128)) },
    ?_, rfl, rfl, rfl, rfl, rfl, rfl, rfl⟩
  rw [step, hd, decode_subAl1]

theorem step_addAl1 {buf ro wo} {m : Machine}
    (hd : buf.drop m.rip = 0x04 :: 0x01 :: buf.drop (m.rip + 2)) :
    ∃ m1, step buf ro wo m = StepRes.running m1 ∧ m1.rip = m.rip + 2 ∧
      m1.writes = m.writes ∧ m1.r12 = m.r12 ∧ m1.r14 = m.r14 ∧ m1.stack = m.stack ∧
      m1.reads = m.reads ∧ m1.mem = m.mem := by
  refine ⟨{ m with rip := m.rip + 2, rax := m.rax - m.rax % 256 + (m.rax % 256 + 1) % 256, zf := decide ((m.rax % 256 + 1) % 256 = 0), ltf := decide ((128 ≤ (m.rax % 256 + 1) % 256) ≠ (m.rax % 256 = 127)) },
    ?_, rfl, rfl, rfl, rfl, rfl, rfl, rfl⟩
  rw [step, hd, decode_addAl1]

theorem step_movAlMem {buf ro wo} {m : Machine}
    (hd : buf.drop m.rip = 0x88 :: 0x03 :: buf.drop (m.rip + 2)) :
    ∃ m1, step buf ro wo m = StepRes.running m1 ∧ m1.rip = m.rip + 2 ∧
      m1.writes = m.writes ∧ m1.r12 = m.r12 ∧ m1.r14 = m.r14 ∧ m1.stack = m.stack ∧
      m1.reads = m.reads := by
  refine ⟨{ m with rip := m.rip + 2, mem := store8 m.mem m.rbx m.rax },
    ?_, rfl, rfl, rfl, rfl, rfl, rfl⟩
  rw [step, hd, decode_movAlMem]

theorem step_movRbpRdi {buf ro wo} {m : Machine}
    (hd : buf.drop m.rip = 0x48 :: 0x89 :: 0xef :: buf.drop (m.rip + 3)) :
    ∃ m1, step buf ro wo m = StepRes.running m1 ∧ m1.rip = m.rip + 3 ∧
      m1.writes = m.writes ∧ m1.r12 = m.r12 ∧ m1.r14 = m.r14 ∧ m1.stack = m.stack ∧
      m1.reads = m.reads ∧ m1.mem = m.mem := by
  refine ⟨{ m with rip := m.rip + 3, rdi := m.rbp },
    ?_, rfl, rfl, rfl, rfl, rfl, rfl, rfl⟩
  rw [step, hd, decode_movRbpRdi]

theorem step_movR13Rdi {buf ro wo} {m : Machine}
    (hd : buf.drop m.rip = 0x4c :: 0x89 :: 0xef :: buf.drop (m.rip + 3)) :
    ∃ m1, step buf ro wo m = StepRes.running m1 ∧ m1.rip = m.rip + 3 ∧
      m1.writes = m.writes ∧ m1.r12 = m.r12 ∧ m1.r14 = m.r14 ∧ m1.stack = m.stack ∧
      m1.reads = m.reads ∧ m1.mem = m.mem := by
  refine ⟨{ m with rip := m.rip + 3, rdi := m.r13 },
    ?_, rfl, rfl, rfl, rfl, rfl, rfl, rfl⟩
  rw [step, hd, decode_movR13Rdi]

theorem step_movzbq {buf ro wo} {m : Machine}
    (hd : buf.drop m.rip = 0x48 :: 0x0f :: 0xb6 :: 0x33 :: buf.drop (m.rip + 4)) :
    ∃ m1, step buf ro wo m = StepRes.running m1 ∧ m1.rip = m.rip + 4 ∧
      m1.writes = m.writes ∧ m1.r12 = m.r12 ∧ m1.r14 = m.r14 ∧ m1.stack = m.stack ∧
      m1.reads = m.reads ∧ m1.mem = m.mem := by
  refine ⟨{ m with rip := m.rip + 4, rsi := m.mem (m.rbx % U64) % 256 },
    ?_, rfl, rfl, rfl, rfl, rfl, rfl, rfl⟩
  rw [step, hd, decode_movzbq]

theorem step_callR14_read {buf ro wo} {m : Machine}
    (hd : buf.drop m.rip = 0x41 :: 0xff :: 0xd6 :: buf.drop (m.rip + 3))
    (hr14 : m.r14 = RTOK) :
    ∃ m1, step buf ro wo m = StepRes.running m1 ∧ m1.rip = m.rip + 3 ∧
      m1.writes = m.writes ∧ m1.r12 = m.r12 ∧ m1.r14 = m.r14 ∧ m1.stack = m.stack ∧
      m1.reads = m.reads + 1 ∧ m1.rax = ro m.reads % U64 ∧ m1.mem = m.mem := by
  refine ⟨{ m with rip := m.rip + 3, rax := ro m.reads % U64, rdi := 0, rsi := 0, reads := m.reads + 1 },
    ?_, rfl, rfl, rfl, rfl, rfl, rfl, rfl, rfl⟩
  rw [step, hd, decode_callR14, hr14]
  rfl

theorem step_callR12_write {buf ro wo} {m : Machine}
    (hd : buf.drop m.rip = 0x41 :: 0xff :: 0xd4 :: buf.drop (m.rip + 3))
    (hr12 : m.r12 = WTOK) (hwo : wo m.writes = false) :
    ∃ m1, step buf ro wo m = StepRes.running m1 ∧ m1.rip = m.rip + 3 ∧
      m1.writes = m.writes + 1 ∧ m1.r12 = m.r12 ∧ m1.r14 = m.r14 ∧ m1.stack = m.stack ∧
      m1.reads = m.reads ∧ m1.rax = 0 ∧ m1.mem = m.mem := by
  refine ⟨{ m with rip := m.rip + 3, rax := 0, rdi := 0, rsi := 0, writes := m.writes + 1 },
    ?_, rfl, rfl, rfl, rfl, rfl, rfl, rfl, rfl⟩
  rw [step, hd, decode_callR12, hr12, hwo]
  rfl

theorem step_cmpRaxImm {buf ro wo} {m : Machine} {i : Nat}
    (hd : buf.drop m.rip = 0x48 :: 0x83 :: 0xf8 :: i :: buf.drop (m.rip + 4)) :
    ∃ m1, step buf ro wo m = StepRes.running m1 ∧ m1.rip = m.rip + 4 ∧
      m1.writes = m.writes ∧ m1.r12 = m.r12 ∧ m1.r14 = m.r14 ∧ m1.stack = m.stack ∧
      m1.reads = m.reads ∧ m1.rax = m.rax ∧ m1.mem = m.mem ∧
      m1.zf = decide (m.rax = i) ∧ m1.ltf = decide (sint64 m.rax < (i : Int)) := by
  refine ⟨{ m with rip := m.rip + 4, zf := decide (m.rax = i), ltf := decide (sint64 m.rax < (i : Int)) },
    ?_, rfl, rfl, rfl, rfl, rfl, rfl, rfl, rfl, rfl, rfl⟩
  rw [step, hd, decode_cmpRaxImm]

theorem step_jl_not {buf ro wo} {m : Machine} {b0 b1 b2 b3 : Nat}
    (hd : buf.drop m.rip = 0x0f :: 0x8c :: b0 :: b1 :: b2 :: b3 :: buf.drop (m.rip + 6))
    (hltf : m.ltf = false) :
    ∃ m1, step buf ro wo m = StepRes.running m1 ∧ m1.rip = m.rip + 6 ∧
      m1.writes = m.writes ∧ m1.r12 = m.r12 ∧ m1.r14 = m.r14 ∧ m1.stack = m.stack ∧
      m1.reads = m.reads ∧ m1.mem = m.mem := by
  refine ⟨{ m with rip := m.rip + 6 },
    ?_, rfl, rfl, rfl, rfl, rfl, rfl, rfl⟩
  rw [step, hd, decode_jl, hltf]
  rfl

theorem step_je_not {buf ro wo} {m : Machine} {b0 b1 b2 b3 : Nat}
    (hd : buf.drop m.rip = 0x0f :: 0x84 :: b0 :: b1 :: b2 :: b3 :: buf.drop (m.rip + 6))
    (hzf : m.zf = false) :
    ∃ m1, step buf ro wo m = StepRes.running m1 ∧ m1.rip = m.rip + 6 ∧
      m1.writes = m.writes ∧ m1.r12 = m.r12 ∧ m1.r14 = m.r14 ∧ m1.stack = m.stack ∧
      m1.reads = m.reads ∧ m1.mem = m.mem := by
  refine ⟨{ m with rip := m.rip + 6 },
    ?_, rfl, rfl, rfl, rfl, rfl, rfl, rfl⟩
  rw [step, hd, decode_je, hzf]
  rfl

theorem step_movRaxMem {buf ro wo} {m : Machine}
    (hd : buf.drop m.rip = 0x48 :: 0x89 :: 0x03 :: buf.drop (m.rip + 3)) :
    ∃ m1, step buf ro wo m = StepRes.running m1 ∧ m1.rip = m.rip + 3 ∧
      m1.writes = m.writes ∧ m1.r12 = m.r12 ∧ m1.r14 = m.r14 ∧ m1.stack = m.stack ∧
      m1.reads = m.reads := by
  refine ⟨{ m with rip := m.rip + 3, mem := store64 m.mem m.rbx m.rax },
    ?_, rfl, rfl, rfl, rfl, rfl, rfl⟩
  rw [step, hd, decode_movRaxMem]

theorem step_cmpbMem0 {buf ro wo} {m : Machine}
    (hd : buf.drop m.rip = 0x80 :: 0x3b :: 0x00 :: buf.drop (m.rip + 3)) :
    ∃ m1, step buf ro wo m = StepRes.running m1 ∧ m1.rip = m.rip + 3 ∧
      m1.writes = m.writes ∧ m1.r12 = m.r12 ∧ m1.r14 = m.r14 ∧ m1.stack = m.stack ∧
      m1.reads = m.reads ∧ m1.mem = m.mem ∧ m1.rbx = m.rbx ∧
      m1.zf = decide (m.mem (m.rbx % U64) % 256 = 0) := by
  refine ⟨{ m with rip := m.rip + 3, zf := decide (m.mem (m.rbx % U64) % 256 = 0), ltf := decide (128 ≤ m.mem (m.rbx % U64) % 256) },
    ?_, rfl, rfl, rfl, rfl, rfl, rfl, rfl, rfl, rfl⟩
  rw [step, hd, decode_cmpbMem0]

theorem step_jmp32 {buf ro wo} {m : Machine} {T : Nat}
    (hd : buf.drop m.rip = 0xe9 ::
      toU32 ((T : Int) - ((m.rip : Int) + 5)) % 256 ::
      toU32 ((T : Int) - ((m.rip : Int) + 5)) / 256 % 256 ::
      toU32 ((T : Int) - ((m.rip : Int) + 5)) / 65536 % 256 ::
      toU32 ((T : Int) - ((m.rip : Int) + 5)) / 16777216 % 256 ::
      buf.drop (m.rip + 5))
    (hT : T < 2 ^ 31) (hrip : m.rip + 5 ≤ 2 ^ 31) :
    ∃ m1, step buf ro wo m = StepRes.running m1 ∧ m1.rip = T ∧
      m1.writes = m.writes ∧ m1.r12 = m.r12 ∧ m1.r14 = m.r14 ∧ m1.stack = m.stack ∧
      m1.reads = m.reads ∧ m1.mem = m.mem := by
  have hsint : sint32 (toU32 ((T : Int) - ((m.rip : Int) + 5))) =
      (T : Int) - ((m.rip : Int) + 5) := by
    apply sint32_toU32 <;> omega
  have hdec : decodeLE32 (toU32 ((T : Int) - ((m.rip : Int) + 5)) % 256)
      (toU32 ((T : Int) - ((m.rip : Int) + 5)) / 256 % 256)
      (toU32 ((T : Int) - ((m.rip : Int) + 5)) / 65536 % 256)
      (toU32 ((T : Int) - ((m.rip : Int) + 5)) / 16777216 % 256) =
      toU32 ((T : Int) - ((m.rip : Int) + 5)) :=
    decodeLE32_le32 _ (toU32_lt _)
  have hs : step buf ro wo m = jumpRel m 5 (toU32 ((T : Int) - ((m.rip : Int) + 5))) := by
    rw [step, hd, decode_jmp32, hdec]
  simp only [jumpRel, hsint] at hs
  rw [if_neg (by push_cast; omega)] at hs
  refine ⟨_, hs, ?_, rfl, rfl, rfl, rfl, rfl, rfl⟩
  show (((m.rip : Int) + ((5 : Nat) : Int) + ((T : Int) - ((m.rip : Int) + 5)))).toNat = T
  push_cast
  omega

theorem step_je_taken {buf ro wo} {m : Machine} {T : Nat}
    (hd : buf.drop m.rip = 0x0f :: 0x84 ::
      toU32 ((T : Int) - ((m.rip : Int) + 6)) % 256 ::
      toU32 ((T : Int) - ((m.rip : Int) + 6)) / 256 % 256 ::
      toU32 ((T : Int) - ((m.rip : Int) + 6)) / 65536 % 256 ::
      toU32 ((T : Int) - ((m.rip : Int) + 6)) / 16777216 % 256 ::
      buf.drop (m.rip + 6))
    (hzf : m.zf = true) (hT : T < 2 ^ 31) (hrip : m.rip + 6 ≤ 2 ^ 31) :
    ∃ m1, step buf ro wo m = StepRes.running m1 ∧ m1.rip = T ∧
      m1.writes = m.writes ∧ m1.r12 = m.r12 ∧ m1.r14 = m.r14 ∧ m1.stack = m.stack ∧
      m1.reads = m.reads ∧ m1.mem = m.mem := by
  have hsint : sint32 (toU32 ((T : Int) - ((m.rip : Int) + 6))) =
      (T : Int) - ((m.rip : Int) + 6) := by
    apply sint32_toU32 <;> omega
  have hdec : decodeLE32 (toU32 ((T : Int) - ((m.rip : Int) + 6)) % 256)
      (toU32 ((T : Int) - ((m.rip : Int) + 6)) / 256 % 256)
      (toU32 ((T : Int) - ((m.rip : Int) + 6)) / 65536 % 256)
      (toU32 ((T : Int) - ((m.rip : Int) + 6)) / 16777216 % 256) =
      toU32 ((T : Int) - ((m.rip : Int) + 6)) :=
    decodeLE32_le32 _ (toU32_lt _)
  have hs : step buf ro wo m = jumpRel m 6 (toU32 ((T : Int) - ((m.rip : Int) + 6))) := by
    rw [step, hd, decode_je, hdec, hzf]
    rfl
  simp only [jumpRel, hsint] at hs
  rw [if_neg (by push_cast; omega)] at hs
  refine ⟨_, hs, ?_, rfl, rfl, rfl, rfl, rfl, rfl⟩
  show (((m.rip : Int) + ((6 : Nat) : Int) + ((T : Int) - ((m.rip : Int) + 6)))).toNat = T
  push_cast
  omega

theorem step_jne_taken {buf ro wo} {m : Machine} {T : Nat}
    (hd : buf.drop m.rip = 0x0f :: 0x85 ::
      toU32 ((T : Int) - ((m.rip : Int) + 6)) % 256 ::
      toU32 ((T : Int) - ((m.rip : Int) + 6)) / 256 % 256 ::
      toU32 ((T : Int) - ((m.rip : Int) + 6)) / 65536 % 256 ::
      toU32 ((T : Int) - ((m.rip : Int) + 6)) / 16777216 % 256 ::
      buf.drop (m.rip + 6))
    (hzf : m.zf = false) (hT : T < 2 ^ 31) (hrip : m.rip + 6 ≤ 2 ^ 31) :
    ∃ m1, step buf ro wo m = StepRes.running m1 ∧ m1.rip = T ∧
      m1.writes = m.writes ∧ m1.r12 = m.r12 ∧ m1.r14 = m.r14 ∧ m1.stack = m.stack ∧
      m1.reads = m.reads ∧ m1.mem = m.mem := by
  have hsint : sint32 (toU32 ((T : Int) - ((m.rip : Int) + 6))) =
      (T : Int) - ((m.rip : Int) + 6) := by
    apply sint32_toU32 <;> omega
  have hdec : decodeLE32 (toU32 ((T : Int) - ((m.rip : Int) + 6)) % 256)
      (toU32 ((T : Int) - ((m.rip : Int) + 6)) / 256 % 256)
      (toU32 ((T : Int) - ((m.rip : Int) + 6)) / 65536 % 256)
      (toU32 ((T : Int) - ((m.rip : Int) + 6)) / 16777216 % 256) =
      toU32 ((T : Int) - ((m.rip : Int) + 6)) :=
    decodeLE32_le32 _ (toU32_lt _)
  have hs : step buf ro wo m = jumpRel m 6 (toU32 ((T : Int) - ((m.rip : Int) + 6))) := by
    rw [step, hd, decode_jne, hdec, hzf]
    rfl
  simp only [jumpRel, hsint] at hs
  rw [if_neg (by push_cast; omega)] at hs
  refine ⟨_, hs, ?_, rfl, rfl, rfl, rfl, rfl, rfl⟩
  show (((m.rip : Int) + ((6 : Nat) : Int) + ((T : Int) - ((m.rip : Int) + 6)))).toNat = T
  push_cast
  omega

theorem agreeFrom_refl (a : Nat) (c : List Nat) : AgreeFrom a c c :=
  fun _ _ _ => rfl

theorem agreeFrom_mono {a a' : Nat} {c buf : List Nat} (h : a ≤ a')
    (hag : AgreeFrom a c buf) : AgreeFrom a' c buf :=
  fun i ha hi => hag i (le_trans h ha) hi

theorem agreeFrom_append (a : Nat) (c u : List Nat) : AgreeFrom a c (c ++ u) :=
  fun i _ hi => by rw [List.getElem?_append, if_pos hi]

theorem agreeFrom_trans {a : Nat} {c1 c2 buf : List Nat}
    (h12 : AgreeFrom a c1 c2) (h2 : AgreeFrom a c2 buf)
    (hlen : c1.length ≤ c2.length) : AgreeFrom a c1 buf :=
  fun i ha hi => (h2 i ha (lt_of_lt_of_le hi hlen)).trans (h12 i ha hi)

theorem agreeFrom_replace {a js : Nat} {patch c : List Nat}
    (hle : js ≤ c.length) (hp : patch.length = 6) (hja : js + 6 ≤ a) :
    AgreeFrom a c (replace_range js 6 patch c) :=
  fun i ha _ => replace_range_getElem_ge hle hp (by omega)

theorem bytesAt_agreeFrom {a p : Nat} {xs buf bs : List Nat}
    (h : BytesAt xs p bs) (ha : a ≤ p) (hb : p + bs.length ≤ xs.length)
    (hag : AgreeFrom a xs buf) : BytesAt buf p bs :=
  fun i hi => by rw [hag (p + i) (by omega) (by omega)]; exact h i hi

theorem laid_le {buf : List Nat} {E : Nat} : ∀ {p q : Nat}, Laid buf E p q → p ≤ q := by
  intro p q h
  induction h with
  | nil => exact le_rfl
  | left _ _ _ _ ih => omega
  | right _ _ _ _ ih => omega
  | sub _ _ _ _ ih => omega
  | add _ _ _ _ ih => omega
  | read _ _ _ _ ih => omega
  | write _ _ _ _ ih => omega
  | loop _ _ _ _ _ _ _ ih1 ih2 => omega

theorem exec_SUBTRACT {buf : List Nat} {ro wo} {m : Machine}
    (hB : BytesAt buf m.rip SUBTRACT) (hw : m.writes = 0) :
    ∃ m1, IterGood buf ro wo 3 m m1 ∧ Post m (m.rip + 6) m1 := by
  have hD : buf.drop m.rip =
      0x8a :: 0x03 :: 0x2c :: 0x01 :: 0x88 :: 0x03 :: buf.drop (m.rip + 6) := by
    have := bytesAt_drop hB
    simpa [SUBTRACT] using this
  have hd2 : buf.drop (m.rip + 2) = 0x2c :: 0x01 :: 0x88 :: 0x03 :: buf.drop (m.rip + 6) := by
    rw [drop_shift buf m.rip 2, hD]
    rfl
  have hd4 : buf.drop (m.rip + 4) = 0x88 :: 0x03 :: buf.drop (m.rip + 6) := by
    rw [drop_shift buf m.rip 4, hD]
    rfl
  have hd0 : buf.drop m.rip = 0x8a :: 0x03 :: buf.drop (m.rip + 2) := by
    rw [hD, hd2]
  obtain ⟨m1, hs1, hrip1, hw1, h121, h141, hst1, hrd1, hm1⟩ := step_movMemAl hd0
  have e1 : buf.drop m1.rip = 0x2c :: 0x01 :: buf.drop (m1.rip + 2) := by
    rw [hrip1, show m.rip + 2 + 2 = m.rip + 4 from by omega, hd2, hd4]
  obtain ⟨m2, hs2, hrip2, hw2, h122, h142, hst2, hrd2, hm2⟩ := step_subAl1 e1
  have e2 : buf.drop m2.rip = 0x88 :: 0x03 :: buf.drop (m2.rip + 2) := by
    rw [hrip2, hrip1, show m.rip + 2 + 2 = m.rip + 4 from by omega,
      show m.rip + 4 + 2 = m.rip + 6 from by omega, hd4]
  obtain ⟨m3, hs3, hrip3, hw3, h123, h143, hst3, hrd3⟩ := step_movAlMem e2
  refine ⟨m3, ⟨m1, hs1, goodStep_no_write hw1 hw, m2, hs2,
    goodStep_no_write hw2 (by rw [hw1, hw]), m3, hs3,
    goodStep_no_write hw3 (by rw [hw2, hw1, hw]), rfl⟩, ?_, ?_, ?_, ?_, ?_, ?_⟩
  · rw [hrip3, hrip2, hrip1]
  · rw [hw3, hw2, hw1]
  · rw [h123, h122, h121]
  · rw [h143, h142, h141]
  · rw [hst3, hst2, hst1]
  · rw [hrd3, hrd2, hrd1]

theorem exec_ADD {buf : List Nat} {ro wo} {m : Machine}
    (hB : BytesAt buf m.rip ADD) (hw : m.writes = 0) :
    ∃ m1, IterGood buf ro wo 3 m m1 ∧ Post m (m.rip + 6) m1 := by
  have hD : buf.drop m.rip =
      0x8a :: 0x03 :: 0x04 :: 0x01 :: 0x88 :: 0x03 :: buf.drop (m.rip + 6) := by
    have := bytesAt_drop hB
    simpa [ADD] using this
  have hd2 : buf.drop (m.rip + 2) = 0x04 :: 0x01 :: 0x88 :: 0x03 :: buf.drop (m.rip + 6) := by
    rw [drop_shift buf m.rip 2, hD]
    rfl
  have hd4 : buf.drop (m.rip + 4) = 0x88 :: 0x03 :: buf.drop (m.rip + 6) := by
    rw [drop_shift buf m.rip 4, hD]
    rfl
  have hd0 : buf.drop m.rip = 0x8a :: 0x03 :: buf.drop (m.rip + 2) := by
    rw [hD, hd2]
  obtain ⟨m1, hs1, hrip1, hw1, h121, h141, hst1, hrd1, hm1⟩ := step_movMemAl hd0
  have e1 : buf.drop m1.rip = 0x04 :: 0x01 :: buf.drop (m1.rip + 2) := by
    rw [hrip1, show m.rip + 2 + 2 = m.rip + 4 from by omega, hd2, hd4]
  obtain ⟨m2, hs2, hrip2, hw2, h122, h142, hst2, hrd2, hm2⟩ := step_addAl1 e1
  have e2 : buf.drop m2.rip = 0x88 :: 0x03 :: buf.drop (m2.rip + 2) := by
    rw [hrip2, hrip1, show m.rip + 2 + 2 = m.rip + 4 from by omega,
      show m.rip + 4 + 2 = m.rip + 6 from by omega, hd4]
  obtain ⟨m3, hs3, hrip3, hw3, h123, h143, hst3, hrd3⟩ := step_movAlMem e2
  refine ⟨m3, ⟨m1, hs1, goodStep_no_write hw1 hw, m2, hs2,
    goodStep_no_write hw2 (by rw [hw1, hw]), m3, hs3,
    goodStep_no_write hw3 (by rw [hw2, hw1, hw]), rfl⟩, ?_, ?_, ?_, ?_, ?_, ?_⟩
  · rw [hrip3, hrip2, hrip1]
  · rw [hw3, hw2, hw1]
  · rw [h123, h122, h121]
  · rw [h143, h142, h141]
  · rw [hst3, hst2, hst1]
  · rw [hrd3, hrd2, hrd1]

theorem exec_READ {buf : List Nat} {ro wo} {m : Machine} {dj : Nat}
    (hB : BytesAt buf m.rip (READ ++ [0x0f, 0x8c] ++ le32 dj ++ READ_STORE))
    (hr14 : m.r14 = RTOK) (hro : ro m.reads < 2 ^ 31) (hw : m.writes = 0) :
    ∃ m1, IterGood buf ro wo 5 m m1 ∧ Post m (m.rip + 19) m1 := by
  have hD : buf.drop m.rip =
      0x48 :: 0x89 :: 0xef :: 0x41 :: 0xff :: 0xd6 :: 0x48 :: 0x83 :: 0xf8 :: 0x00 ::
      0x0f :: 0x8c :: dj % 256 :: dj / 256 % 256 :: dj / 65536 % 256 ::
      dj / 16777216 % 256 :: 0x48 :: 0x89 :: 0x03 :: buf.drop (m.rip + 19) := by
    have := bytesAt_drop hB
    simpa [READ, READ_STORE, le32] using this
  have hd3 : buf.drop (m.rip + 3) = 0x41 :: 0xff :: 0xd6 :: buf.drop (m.rip + 6) := by
    rw [drop_shift buf m.rip 3, hD, drop_shift buf m.rip 6, hD]
    rfl
  have hd6 : buf.drop (m.rip + 6) =
      0x48 :: 0x83 :: 0xf8 :: 0x00 :: buf.drop (m.rip + 10) := by
    rw [drop_shift buf m.rip 6, hD, drop_shift buf m.rip 10, hD]
    rfl
  have hd10 : buf.drop (m.rip + 10) =
      0x0f :: 0x8c :: dj % 256 :: dj / 256 % 256 :: dj / 65536 % 256 ::
      dj / 16777216 % 256 :: buf.drop (m.rip + 16) := by
    rw [drop_shift buf m.rip 10, hD, drop_shift buf m.rip 16, hD]
    rfl
  have hd16 : buf.drop (m.rip + 16) = 0x48 :: 0x89 :: 0x03 :: buf.drop (m.rip + 19) := by
    rw [drop_shift buf m.rip 16, hD, drop_shift buf m.rip 19, hD]
    rfl
  have hd0 : buf.drop m.rip = 0x48 :: 0x89 :: 0xef :: buf.drop (m.rip + 3) := by
    rw [hD, hd3, hd6, hd10, hd16]
  obtain ⟨m1, hs1, hrip1, hw1, h121, h141, hst1, hrd1, hm1⟩ := step_movRbpRdi hd0
  have e1 : buf.drop m1.rip = 0x41 :: 0xff :: 0xd6 :: buf.drop (m1.rip + 3) := by
    rw [hrip1, show m.rip + 3 + 3 = m.rip + 6 from by omega, hd3, hd6]
  obtain ⟨m2, hs2, hrip2, hw2, h122, h142, hst2, hrd2, hrax2, hm2⟩ :=
    step_callR14_read e1 (by rw [h141, hr14])
  have e2 : buf.drop m2.rip = 0x48 :: 0x83 :: 0xf8 :: 0x00 :: buf.drop (m2.rip + 4) := by
    rw [hrip2, hrip1, show m.rip + 3 + 3 = m.rip + 6 from by omega,
      show m.rip + 6 + 4 = m.rip + 10 from by omega, hd6, hd10]
  obtain ⟨m3, hs3, hrip3, hw3, h123, h143, hst3, hrd3, hrax3, hm3, hzf3, hltf3⟩ :=
    step_cmpRaxImm e2
  have hltf3' : m3.ltf = false := by
    have hlt : ro m.reads % U64 < 2 ^ 63 :=
      lt_of_le_of_lt (Nat.mod_le _ _) (lt_trans hro (by norm_num))
    rw [hltf3, hrax2, hrd1, sint64, if_pos hlt]
    simp only [decide_eq_false_iff_not, not_lt]
    exact_mod_cast Nat.zero_le _
  have e3 : buf.drop m3.rip = 0x0f :: 0x8c :: dj % 256 :: dj / 256 % 256 ::
      dj / 65536 % 256 :: dj / 16777216 % 256 :: buf.drop (m3.rip + 6) := by
    rw [hrip3, hrip2, hrip1, show m.rip + 3 + 3 = m.rip + 6 from by omega,
      show m.rip + 6 + 4 = m.rip + 10 from by omega,
      show m.rip + 10 + 6 = m.rip + 16 from by omega, hd10, hd16]
  obtain ⟨m4, hs4, hrip4, hw4, h124, h144, hst4, hrd4, hm4⟩ := step_jl_not e3 hltf3'
  have e4 : buf.drop m4.rip = 0x48 :: 0x89 :: 0x03 :: buf.drop (m4.rip + 3) := by
    rw [hrip4, hrip3, hrip2, hrip1, show m.rip + 3 + 3 = m.rip + 6 from by omega,
      show m.rip + 6 + 4 = m.rip + 10 from by omega,
      show m.rip + 10 + 6 = m.rip + 16 from by omega,
      show m.rip + 16 + 3 = m.rip + 19 from by omega, hd16]
  obtain ⟨m5, hs5, hrip5, hw5, h125, h145, hst5, hrd5⟩ := step_movRaxMem e4
  have hw2' : m2.writes = 0 := by rw [hw2, hw1, hw]
  refine ⟨m5, ⟨m1, hs1, goodStep_no_write hw1 hw, m2, hs2,
    goodStep_no_write hw2 (by rw [hw1, hw]), m3, hs3, goodStep_no_write hw3 hw2',
    m4, hs4, goodStep_no_write hw4 (by rw [hw3, hw2']), m5, hs5,
    goodStep_no_write hw5 (by rw [hw4, hw3, hw2']), rfl⟩, ?_, ?_, ?_, ?_, ?_, ?_⟩
  · rw [hrip5, hrip4, hrip3, hrip2, hrip1]
  · rw [hw5, hw4, hw3, hw2, hw1]
  · rw [h125, h124, h123, h122, h121]
  · rw [h145, h144, h143, h142, h141]
  · rw [hst5, hst4, hst3, hst2, hst1]
  · rw [hrd5, hrd4, hrd3, hrd2, hrd1]
    exact Nat.le_succ _

/-- Executing the code emitted for `.` when every write fails: the three
set-up instructions run, the call increments the write counter and returns
0, the comparison with 1 clears the zero flag, the `jne` transfers control
to the shared exit, and the epilogue returns — with the machine frozen
from the call onwards.  The whole run from here is safe for any fuel. -/
theorem exec_WRITE {buf : List Nat} {ro wo} {m : Machine} {E : Nat}
    (hB : BytesAt buf m.rip (WRITE ++ [0x0f, 0x85] ++
      le32 (toU32 ((E : Int) - ((m.rip : Int) + 20)))))
    (hE : BytesAt buf E EXIT)
    (h12 : m.r12 = WTOK) (hst : m.stack.length = 5)
    (hw : m.writes = 0) (hwo : ∀ k, wo k = false)
    (hElt : E < 2 ^ 31) (hrip : m.rip + 20 ≤ 2 ^ 31) :
    ∀ n, Safe buf ro wo n m := by
  have hD : buf.drop m.rip =
      0x4c :: 0x89 :: 0xef :: 0x48 :: 0x0f :: 0xb6 :: 0x33 :: 0x41 :: 0xff :: 0xd4 ::
      0x48 :: 0x83 :: 0xf8 :: 0x01 :: 0x0f :: 0x85 ::
      toU32 ((E : Int) - ((m.rip : Int) + 20)) % 256 ::
      toU32 ((E : Int) - ((m.rip : Int) + 20)) / 256 % 256 ::
      toU32 ((E : Int) - ((m.rip : Int) + 20)) / 65536 % 256 ::
      toU32 ((E : Int) - ((m.rip : Int) + 20)) / 16777216 % 256 ::
      buf.drop (m.rip + 20) := by
    have := bytesAt_drop hB
    simpa [WRITE, le32] using this
  have hd3 : buf.drop (m.rip + 3) =
      0x48 :: 0x0f :: 0xb6 :: 0x33 :: buf.drop (m.rip + 7) := by
    rw [drop_shift buf m.rip 3, hD, drop_shift buf m.rip 7, hD]
    rfl
  have hd7 : buf.drop (m.rip + 7) = 0x41 :: 0xff :: 0xd4 :: buf.drop (m.rip + 10) := by
    rw [drop_shift buf m.rip 7, hD, drop_shift buf m.rip 10, hD]
    rfl
  have hd10 : buf.drop (m.rip + 10) =
      0x48 :: 0x83 :: 0xf8 :: 0x01 :: buf.drop (m.rip + 14) := by
    rw [drop_shift buf m.rip 10, hD, drop_shift buf m.rip 14, hD]
    rfl
  have hd14 : buf.drop (m.rip + 14) = 0x0f :: 0x85 ::
      toU32 ((E : Int) - ((m.rip : Int) + 20)) % 256 ::
      toU32 ((E : Int) - ((m.rip : Int) + 20)) / 256 % 256 ::
      toU32 ((E : Int) - ((m.rip : Int) + 20)) / 65536 % 256 ::
      toU32 ((E : Int) - ((m.rip : Int) + 20)) / 16777216 % 256 ::
      buf.drop (m.rip + 20) := by
    rw [drop_shift buf m.rip 14, hD, drop_shift buf m.rip 20, hD]
    rfl
  have hd0 : buf.drop m.rip = 0x4c :: 0x89 :: 0xef :: buf.drop (m.rip + 3) := by
    rw [hD, hd3, hd7, hd10, hd14]
  obtain ⟨m1, hs1, hrip1, hw1, h121, h141, hst1, hrd1, hm1⟩ := step_movR13Rdi hd0
  have e1 : buf.drop m1.rip = 0x48 :: 0x0f :: 0xb6 :: 0x33 :: buf.drop (m1.rip + 4) := by
    rw [hrip1, show m.rip + 3 + 4 = m.rip + 7 from by omega, hd3, hd7]
  obtain ⟨m2, hs2, hrip2, hw2, h122, h142, hst2, hrd2, hm2⟩ := step_movzbq e1
  have hrip2' : m2.rip = m.rip + 7 := by
    rw [hrip2, hrip1]
  have hw2' : m2.writes = 0 := by rw [hw2, hw1, hw]
  have e2 : buf.drop m2.rip = 0x41 :: 0xff :: 0xd4 :: buf.drop (m2.rip + 3) := by
    rw [hrip2', show m.rip + 7 + 3 = m.rip + 10 from by omega, hd7, hd10]
  obtain ⟨m3, hs3, hrip3, hw3, h123, h143, hst3, hrd3, hrax3, hm3⟩ :=
    step_callR12_write e2 (by rw [h122, h121, h12]) (by rw [hw2']; exact hwo 0)
  have hrip3' : m3.rip = m.rip + 10 := by
    rw [hrip3, hrip2']
  have hw3' : m3.writes = 1 := by rw [hw3, hw2']
  have e3 : buf.drop m3.rip = 0x48 :: 0x83 :: 0xf8 :: 0x01 :: buf.drop (m3.rip + 4) := by
    rw [hrip3', show m.rip + 10 + 4 = m.rip + 14 from by omega, hd10, hd14]
  obtain ⟨m4, hs4, hrip4, hw4, h124, h144, hst4, hrd4, hrax4, hm4, hzf4, hltf4⟩ :=
    step_cmpRaxImm e3
  have hrip4' : m4.rip = m.rip + 14 := by
    rw [hrip4, hrip3']
  have hzf4' : m4.zf = false := by
    rw [hzf4, hrax3]
    decide
  have harg : (E : Int) - ((m4.rip : Int) + 6) = (E : Int) - ((m.rip : Int) + 20) := by
    rw [hrip4']
    push_cast
    ring
  have e4 : buf.drop m4.rip = 0x0f :: 0x85 ::
      toU32 ((E : Int) - ((m4.rip : Int) + 6)) % 256 ::
      toU32 ((E : Int) - ((m4.rip : Int) + 6)) / 256 % 256 ::
      toU32 ((E : Int) - ((m4.rip : Int) + 6)) / 65536 % 256 ::
      toU32 ((E : Int) - ((m4.rip : Int) + 6)) / 16777216 % 256 ::
      buf.drop (m4.rip + 6) := by
    rw [harg, hrip4', show m.rip + 14 + 6 = m.rip + 20 from by omega, hd14]
  obtain ⟨m5, hs5, hrip5, hw5, h125, h145, hst5, hrd5, hm5⟩ :=
    step_jne_taken e4 hzf4' hElt (by rw [hrip4']; omega)
  obtain ⟨hsafe5, mf, hitf, hmemf, hrdf, hwrf⟩ :=
    epilogue_run buf ro wo E hE m5 hrip5 (by rw [hst5, hst4, hst3, hst2, hst1]; exact hst)
  have hf5 : HaltsFrozen buf ro wo m5 :=
    ⟨6, mf, by omega, hitf, hmemf, hrdf, hwrf⟩
  have hit4 : iter buf ro wo 7 m4 = StepRes.halted mf := by
    rw [show (7 : Nat) = 6 + 1 from rfl, iter_step_running hs5, hitf]
  have hf4 : HaltsFrozen buf ro wo m4 :=
    ⟨7, mf, by omega, hit4, by rw [hmemf, hm5], by rw [hrdf, hrd5], by rw [hwrf, hw5]⟩
  have hit3 : iter buf ro wo 8 m3 = StepRes.halted mf := by
    rw [show (8 : Nat) = 7 + 1 from rfl, iter_step_running hs4, hit4]
  have hf3 : HaltsFrozen buf ro wo m3 :=
    ⟨8, mf, by omega, hit3, by rw [hmemf, hm5, hm4], by rw [hrdf, hrd5, hrd4],
      by rw [hwrf, hw5, hw4]⟩
  have hsafe4 : ∀ n, Safe buf ro wo n m4 :=
    safe_step_cons hs5 ⟨Or.inl hw5, fun _ => hf5⟩ hsafe5
  have hsafe3 : ∀ n, Safe buf ro wo n m3 :=
    safe_step_cons hs4 ⟨Or.inl hw4, fun _ => hf4⟩ hsafe4
  have hsafe2 : ∀ n, Safe buf ro wo n m2 :=
    safe_step_cons hs3 ⟨Or.inr ⟨hw2', by rw [hw3, hw2']⟩, fun _ => hf3⟩ hsafe3
  have hsafe1 : ∀ n, Safe buf ro wo n m1 :=
    safe_step_cons hs2 (goodStep_no_write hw2 (by rw [hw1, hw])) hsafe2
  exact safe_step_cons hs1 (goodStep_no_write hw1 hw) hsafe1

theorem bufExt_agreeFrom {a : Nat} {xs ys : List Nat} (h : BufExt xs ys) :
    AgreeFrom a xs ys := by
  obtain ⟨t, rfl⟩ := h
  exact agreeFrom_append a xs t

/-- A fragment appended at the end of the emission buffer keeps its bytes
in every later buffer and hence in the final one. -/
theorem laid_frag_bytes {code frag code1 buf : List Nat}
    (hbe : BufExt (code ++ frag) code1)
    (hag : AgreeFrom code.length code1 buf) :
    BytesAt buf code.length frag := by
  obtain ⟨t, rfl⟩ := hbe
  refine bytesAt_agreeFrom ?_ le_rfl ?_ hag
  · rw [List.append_assoc]
    exact bytesAt_here
  · simp

/-- Every successful run of the sequence generator lays its fragments
consecutively in any buffer that preserves the emitted region — in
particular in the final patched buffer. -/
theorem genSeq_laid (E : Nat) (s : List Char) (code : List Nat) :
    ∀ code1, generate_sequence_code E s code = some code1 →
      code1.length + 5 ≤ 2 ^ 31 → ∀ buf, AgreeFrom code.length code1 buf →
      Laid buf E code.length code1.length := by
  refine generate_sequence_code.induct E
    (fun s code => ∀ code1, generate_sequence_code E s code = some code1 →
      code1.length + 5 ≤ 2 ^ 31 → ∀ buf, AgreeFrom code.length code1 buf →
      Laid buf E code.length code1.length)
    (fun body code => ∀ codeL, generate_loop_code E body code = some codeL →
      codeL.length < 2 ^ 31 → ∀ buf, AgreeFrom code.length codeL buf →
      ∃ b, codeL.length = b + 5 ∧ LoopLaid buf E code.length b)
    ?_ ?_ ?_ ?_ ?_ ?_ ?_ ?_ ?_ ?_ ?_ ?_ ?_ s code
  · intro code code1 h h31 buf hag
    simp only [generate_sequence_code] at h
    cases h
    exact Laid.nil _
  · intro rest code ih code1 h h31 buf hag
    simp only [generate_sequence_code] at h
    have h' : generate_sequence_code E rest (code ++ LEFT) = some code1 := by simpa using h
    have hbe := generate_sequence_code_bufExt E rest (code ++ LEFT) code1 h'
    refine Laid.left _ _ (laid_frag_bytes hbe hag) ?_
    have ih' := ih code1 h' h31 buf (agreeFrom_mono (by simp) hag)
    rw [show code.length + 4 = (code ++ LEFT).length from by simp [LEFT]]
    exact ih'
  · intro rest code _ ih code1 h h31 buf hag
    simp only [generate_sequence_code] at h
    have h' : generate_sequence_code E rest (code ++ RIGHT) = some code1 := by simpa using h
    have hbe := generate_sequence_code_bufExt E rest (code ++ RIGHT) code1 h'
    refine Laid.right _ _ (laid_frag_bytes hbe hag) ?_
    have ih' := ih code1 h' h31 buf (agreeFrom_mono (by simp) hag)
    rw [show code.length + 4 = (code ++ RIGHT).length from by simp [RIGHT]]
    exact ih'
  · intro rest code _ _ ih code1 h h31 buf hag
    simp only [generate_sequence_code] at h
    have h' : generate_sequence_code E rest (code ++ SUBTRACT) = some code1 := by simpa using h
    have hbe := generate_sequence_code_bufExt E rest (code ++ SUBTRACT) code1 h'
    refine Laid.sub _ _ (laid_frag_bytes hbe hag) ?_
    have ih' := ih code1 h' h31 buf (agreeFrom_mono (by simp) hag)
    rw [show code.length + 6 = (code ++ SUBTRACT).length from by simp [SUBTRACT]]
    exact ih'
  · intro rest code _ _ _ ih code1 h h31 buf hag
    simp only [generate_sequence_code] at h
    have h' : generate_sequence_code E rest (code ++ ADD) = some code1 := by simpa using h
    have hbe := generate_sequence_code_bufExt E rest (code ++ ADD) code1 h'
    refine Laid.add _ _ (laid_frag_bytes hbe hag) ?_
    have ih' := ih code1 h' h31 buf (agreeFrom_mono (by simp) hag)
    rw [show code.length + 6 = (code ++ ADD).length from by simp [ADD]]
    exact ih'
  · intro rest code _ _ _ _ ih code1 h h31 buf hag
    simp only [generate_sequence_code] at h
    have hfrag : (add_jl_to_exit E (code ++ READ)) ++ READ_STORE =
        code ++ (READ ++ [0x0f, 0x8c] ++
          le32 (toU32 ((E : Int) - ((code.length : Int) + 16))) ++ READ_STORE) := by
      rw [add_jl_to_exit]
      have hl12 : ((code ++ READ) ++ [0x0f, 0x8c]).length = code.length + 12 := by
        simp [READ]
      rw [hl12]
      have harg : (E : Int) - (((code.length + 12 : Nat) : Int) + 4) =
          (E : Int) - ((code.length : Int) + 16) := by
        push_cast
        ring
      rw [harg]
      simp [List.append_assoc]
    have h' : generate_sequence_code E rest
        ((add_jl_to_exit E (code ++ READ)) ++ READ_STORE) = some code1 := by
      simpa using h
    have hbe := generate_sequence_code_bufExt E rest _ code1 h'
    rw [hfrag] at hbe
    refine Laid.read _ _ (laid_frag_bytes hbe hag) ?_
    have ih' := ih code1 h' h31 buf (agreeFrom_mono (by rw [hfrag]; simp) hag)
    rw [show code.length + 19 = ((add_jl_to_exit E (code ++ READ)) ++ READ_STORE).length from by
        rw [hfrag]; simp [READ, READ_STORE, le32]]
    exact ih'
  · intro rest code _ _ _ _ _ ih code1 h h31 buf hag
    simp only [generate_sequence_code] at h
    have hfrag : add_jne_to_exit E (code ++ WRITE) =
        code ++ (WRITE ++ [0x0f, 0x85] ++
          le32 (toU32 ((E : Int) - ((code.length : Int) + 20)))) := by
      rw [add_jne_to_exit]
      have hl16 : ((code ++ WRITE) ++ [0x0f, 0x85]).length = code.length + 16 := by
        simp [WRITE]
      rw [hl16]
      have harg : (E : Int) - (((code.length + 16 : Nat) : Int) + 4) =
          (E : Int) - ((code.length : Int) + 20) := by
        push_cast
        ring
      rw [harg]
      simp [List.append_assoc]
    have h' : generate_sequence_code E rest
        (add_jne_to_exit E (code ++ WRITE)) = some code1 := by
      simpa using h
    have hbe := generate_sequence_code_bufExt E rest _ code1 h'
    rw [hfrag] at hbe
    refine Laid.write _ _ (laid_frag_bytes hbe hag) ?_
    have ih' := ih code1 h' h31 buf (agreeFrom_mono (by rw [hfrag]; simp) hag)
    rw [show code.length + 20 = (add_jne_to_exit E (code ++ WRITE)).length from by
        rw [hfrag]; simp [WRITE, le32]]
    exact ih'
  · intro rest code hfind _ _ _ _ _ _ code1 h h31 buf hag
    simp [generate_sequence_code, hfind] at h
  · intro rest code j hfind hloop _ _ _ _ _ _ _ code1 h h31 buf hag
    simp [generate_sequence_code, hfind, hloop] at h
  · intro rest code j hfind codeL hloop _ _ _ _ _ _ ih2 ih1 code1 h h31 buf hag
    simp only [generate_sequence_code, hfind, hloop] at h
    have h' : generate_sequence_code E (rest.drop (j + 1)) codeL = some code1 := by
      simpa using h
    have hbe1 : BufExt codeL code1 := generate_sequence_code_bufExt E _ codeL code1 h'
    have hbe0 : BufExt code codeL := generate_loop_code_bufExt E (rest.take j) code codeL hloop
    have hlen1 := bufExt_length hbe1
    have hlen0 := bufExt_length hbe0
    obtain ⟨b, hb5, hhead, hbody, hback⟩ := ih2 codeL hloop (by omega) buf
      (agreeFrom_trans (bufExt_agreeFrom hbe1) hag hlen1)
    have ih1' := ih1 code1 h' h31 buf (agreeFrom_mono hlen0 hag)
    rw [hb5] at ih1'
    exact Laid.loop _ b _ hhead hbody hback ih1'
  · intro c rest code h1 h2 h3 h4 h5 h6 h7 ih code1 h h31 buf hag
    simp only [generate_sequence_code] at h
    rw [if_neg h1, if_neg h2, if_neg h3, if_neg h4, if_neg h5, if_neg h6, if_neg h7] at h
    exact ih code1 h h31 buf hag
  · intro body code codeA codeP hnone _ codeL h h31 buf hag
    simp only [generate_loop_code] at h
    rw [hnone] at h
    simp at h
  · intro body code codeA codeP codeB hsome ih codeL h h31 buf hag
    have h0 := h
    simp only [generate_loop_code] at h
    rw [hsome] at h
    simp only [Option.some_inj] at h
    have hbeB : BufExt ((code ++ LOOP_CMP) ++ PLACEHOLDER) codeB :=
      generate_sequence_code_bufExt E body _ codeB hsome
    have hlenB : code.length + 9 ≤ codeB.length := by
      have := bufExt_length hbeB
      simp [LOOP_CMP, PLACEHOLDER] at this
      omega
    have hlenL : codeL.length = codeB.length + 5 := by
      rw [← h, replace_range_length
        (by rw [add_jmp_to_offset_length]; simp [LOOP_CMP]; omega)
        (by simp [le32]),
        add_jmp_to_offset_length]
    have hbound : codeB.length + 5 < 2 ^ 31 := by omega
    obtain ⟨frag, hfragB, hshape, _⟩ := c5_generate_loop_shape E body code codeB hsome hbound
    rw [hshape] at h0
    have hLeq := (Option.some_inj.mp h0).symm
    have hlenfrag : codeB.length = code.length + 9 + frag.length := by
      rw [hfragB]
      simp [LOOP_CMP, PLACEHOLDER]
      omega
    have hLhead : codeL = code ++ ((LOOP_CMP ++ ([0x0f, 0x84] ++
        le32 (toU32 (((codeB.length : Int) + 5) - ((code.length : Int) + 9))))) ++
        (frag ++ ([0xe9] ++ le32 (toU32 ((code.length : Int) -
          (((codeB.length : Int) + 1) + 4)))))) := by
      rw [hLeq]
      simp [List.append_assoc]
    have hLback : codeL = (code ++ (LOOP_CMP ++ ([0x0f, 0x84] ++
        le32 (toU32 (((codeB.length : Int) + 5) - ((code.length : Int) + 9))))) ++ frag) ++
        ([0xe9] ++ le32 (toU32 ((code.length : Int) - (((codeB.length : Int) + 1) + 4)))) := by
      rw [hLeq]
      simp [List.append_assoc]
    refine ⟨codeB.length, hlenL, ?_, ?_, ?_⟩
    · refine bytesAt_agreeFrom ?_ le_rfl ?_ hag
      · rw [hLhead]
        exact bytesAt_here
      · rw [hLeq]
        simp [le32, LOOP_CMP]
    · have e9 : ((code ++ LOOP_CMP) ++ PLACEHOLDER).length = code.length + 9 := by
        simp [LOOP_CMP, PLACEHOLDER]
      have A1 : AgreeFrom (code.length + 9) codeB (add_jmp_to_offset code.length codeB) :=
        bufExt_agreeFrom (add_jmp_to_offset_bufExt _ _)
      have A2 : AgreeFrom (code.length + 9) (add_jmp_to_offset code.length codeB) codeL := by
        rw [← h]
        refine agreeFrom_replace ?_ (by simp [le32]) (by simp [LOOP_CMP])
        rw [add_jmp_to_offset_length]
        simp [LOOP_CMP]
        omega
      have A3 : AgreeFrom (code.length + 9) codeL buf := agreeFrom_mono (by omega) hag
      have hagB : AgreeFrom ((code ++ LOOP_CMP) ++ PLACEHOLDER).length codeB buf := by
        rw [e9]
        refine agreeFrom_trans A1 (agreeFrom_trans A2 A3 ?_) ?_
        · rw [← h, replace_range_length
            (by rw [add_jmp_to_offset_length]; simp [LOOP_CMP]; omega)
            (by simp [le32])]
        · rw [add_jmp_to_offset_length]
          omega
      have ihb := ih codeB hsome (by omega) buf hagB
      rw [e9] at ihb
      exact ihb
    · have hb2 : ((code ++ (LOOP_CMP ++ ([0x0f, 0x84] ++
          le32 (toU32 (((codeB.length : Int) + 5) - ((code.length : Int) + 9))))) ++
          frag).length) = codeB.length := by
        simp [le32, LOOP_CMP]
        omega
      have hbk0 : BytesAt codeL ((code ++ (LOOP_CMP ++ ([0x0f, 0x84] ++
          le32 (toU32 (((codeB.length : Int) + 5) - ((code.length : Int) + 9))))) ++
          frag).length) ([0xe9] ++
          le32 (toU32 ((code.length : Int) - (((codeB.length : Int) + 1) + 4)))) := by
        rw [hLback]
        exact bytesAt_here2
      rw [hb2] at hbk0
      have hbk := hbk0
      have harg : (code.length : Int) - (((codeB.length : Int) + 1) + 4) =
          (code.length : Int) - ((codeB.length : Int) + 5) := by ring
      rw [harg] at hbk
      refine bytesAt_agreeFrom hbk (by omega) ?_ hag
      rw [hlenL]
      simp [le32]

/-- Core safety invariant: from any state sitting at the start of a laid
fragment sequence with the prologue's register/stack discipline intact and
no write performed yet, the machine runs safely for any fuel `n ≤ N`,
provided every state that reaches the end of the sequence in the same
discipline is safe for the remaining fuel.  Proved by strong induction on
the fuel (for the loop back-edge) with an inner induction on the layout
derivation. -/
theorem laid_safe {buf : List Nat} {ro : Nat → Nat} {wo : Nat → Bool} {E : Nat}
    (hwo : ∀ k, wo k = false) (hro : ∀ k, ro k < 2 ^ 31)
    (hE : BytesAt buf E EXIT) (hElt : E < 2 ^ 31) :
    ∀ N p q : Nat, Laid buf E p q → q < 2 ^ 31 →
      ∀ n, n ≤ N → ∀ m : Machine, RegInv m → m.rip = p → m.writes = 0 →
      (∀ k m1, k ≤ n → RegInv m1 → m1.rip = q → m1.writes = 0 →
        Safe buf ro wo k m1) →
      Safe buf ro wo n m := by
  intro N
  induction N using Nat.strong_induction_on with
  | _ N IHN =>
  intro p q hL
  induction hL with
  | nil p =>
    intro hq n hn m hreg hrip hw hcont
    exact hcont n m le_rfl hreg hrip hw
  | left p q hB t ih =>
    intro hq n hn m hreg hrip hw hcont
    have hB' : BytesAt buf m.rip LEFT := by rw [hrip]; exact hB
    obtain ⟨m1, hIter, hrip1, hw1, h121, h141, hst1, hrd1⟩ := exec_LEFT hB' hw
    refine @iterGood_safe_all buf ro wo 1 m m1 n n hIter (fun k hk => ?_) (by omega)
    refine ih hq k (by omega) m1
      ⟨by rw [h121]; exact hreg.1, by rw [h141]; exact hreg.2.1,
        by rw [hst1]; exact hreg.2.2⟩
      (by rw [hrip1, hrip]) (by rw [hw1, hw])
      (fun k3 m5 hk3 a b c => hcont k3 m5 (by omega) a b c)
  | right p q hB t ih =>
    intro hq n hn m hreg hrip hw hcont
    have hB' : BytesAt buf m.rip RIGHT := by rw [hrip]; exact hB
    obtain ⟨m1, hIter, hrip1, hw1, h121, h141, hst1, hrd1⟩ := exec_RIGHT hB' hw
    refine @iterGood_safe_all buf ro wo 1 m m1 n n hIter (fun k hk => ?_) (by omega)
    refine ih hq k (by omega) m1
      ⟨by rw [h121]; exact hreg.1, by rw [h141]; exact hreg.2.1,
        by rw [hst1]; exact hreg.2.2⟩
      (by rw [hrip1, hrip]) (by rw [hw1, hw])
      (fun k3 m5 hk3 a b c => hcont k3 m5 (by omega) a b c)
  | sub p q hB t ih =>
    intro hq n hn m hreg hrip hw hcont
    have hB' : BytesAt buf m.rip SUBTRACT := by rw [hrip]; exact hB
    obtain ⟨m1, hIter, hrip1, hw1, h121, h141, hst1, hrd1⟩ := exec_SUBTRACT hB' hw
    refine @iterGood_safe_all buf ro wo 3 m m1 n n hIter (fun k hk => ?_) (by omega)
    refine ih hq k (by omega) m1
      ⟨by rw [h121]; exact hreg.1, by rw [h141]; exact hreg.2.1,
        by rw [hst1]; exact hreg.2.2⟩
      (by rw [hrip1, hrip]) (by rw [hw1, hw])
      (fun k3 m5 hk3 a b c => hcont k3 m5 (by omega) a b c)
  | add p q hB t ih =>
    intro hq n hn m hreg hrip hw hcont
    have hB' : BytesAt buf m.rip ADD := by rw [hrip]; exact hB
    obtain ⟨m1, hIter, hrip1, hw1, h121, h141, hst1, hrd1⟩ := exec_ADD hB' hw
    refine @iterGood_safe_all buf ro wo 3 m m1 n n hIter (fun k hk => ?_) (by omega)
    refine ih hq k (by omega) m1
      ⟨by rw [h121]; exact hreg.1, by rw [h141]; exact hreg.2.1,
        by rw [hst1]; exact hreg.2.2⟩
      (by rw [hrip1, hrip]) (by rw [hw1, hw])
      (fun k3 m5 hk3 a b c => hcont k3 m5 (by omega) a b c)
  | read p q hB t ih =>
    intro hq n hn m hreg hrip hw hcont
    have hB' : BytesAt buf m.rip (READ ++ [0x0f, 0x8c] ++
        le32 (toU32 ((E : Int) - ((p : Int) + 16))) ++ READ_STORE) := by
      rw [hrip]; exact hB
    obtain ⟨m1, hIter, hrip1, hw1, h121, h141, hst1, hrd1⟩ :=
      exec_READ hB' hreg.2.1 (hro m.reads) hw
    refine @iterGood_safe_all buf ro wo 5 m m1 n n hIter (fun k hk => ?_) (by omega)
    refine ih hq k (by omega) m1
      ⟨by rw [h121]; exact hreg.1, by rw [h141]; exact hreg.2.1,
        by rw [hst1]; exact hreg.2.2⟩
      (by rw [hrip1, hrip]) (by rw [hw1, hw])
      (fun k3 m5 hk3 a b c => hcont k3 m5 (by omega) a b c)
  | write p q hB t ih =>
    intro hq n hn m hreg hrip hw hcont
    have hpq : p + 20 ≤ q := laid_le t
    have hB' : BytesAt buf m.rip (WRITE ++ [0x0f, 0x85] ++
        le32 (toU32 ((E : Int) - ((m.rip : Int) + 20)))) := by
      rw [hrip]; exact hB
    exact exec_WRITE hB' hE hreg.1 hreg.2.2 hw hwo hElt (by rw [hrip]; omega) n
  | loop p b q hhead hbody hback t ih1 ih2 =>
    intro hq n hn m hreg hrip hw hcont
    have hpb : p + 9 ≤ b := laid_le hbody
    have hbq : b + 5 ≤ q := laid_le t
    have hD9 : buf.drop p = 0x80 :: 0x3b :: 0x00 :: 0x0f :: 0x84 ::
        toU32 (((b : Int) + 5) - ((p : Int) + 9)) % 256 ::
        toU32 (((b : Int) + 5) - ((p : Int) + 9)) / 256 % 256 ::
        toU32 (((b : Int) + 5) - ((p : Int) + 9)) / 65536 % 256 ::
        toU32 (((b : Int) + 5) - ((p : Int) + 9)) / 16777216 % 256 ::
        buf.drop (p + 9) := by
      have := bytesAt_drop hhead
      simpa [LOOP_CMP, le32] using this
    have hd3 : buf.drop (p + 3) = 0x0f :: 0x84 ::
        toU32 (((b : Int) + 5) - ((p : Int) + 9)) % 256 ::
        toU32 (((b : Int) + 5) - ((p : Int) + 9)) / 256 % 256 ::
        toU32 (((b : Int) + 5) - ((p : Int) + 9)) / 65536 % 256 ::
        toU32 (((b : Int) + 5) - ((p : Int) + 9)) / 16777216 % 256 ::
        buf.drop (p + 9) := by
      rw [drop_shift buf p 3, hD9]
      rfl
    have hd0 : buf.drop m.rip = 0x80 :: 0x3b :: 0x00 :: buf.drop (m.rip + 3) := by
      rw [hrip, hD9, hd3]
    obtain ⟨m1, hs1, hrip1, hw1, h121, h141, hst1, hrd1, hm1, hrbx1, hzf1⟩ :=
      step_cmpbMem0 hd0
    have hrip1' : m1.rip = p + 3 := by rw [hrip1, hrip]
    have hw1' : m1.writes = 0 := by rw [hw1, hw]
    have hreg1 : RegInv m1 :=
      ⟨by rw [h121]; exact hreg.1, by rw [h141]; exact hreg.2.1,
        by rw [hst1]; exact hreg.2.2⟩
    by_cases hz : m.mem (m.rbx % U64) % 256 = 0
    · -- tape byte zero: the je skips past the body
      have hzf1' : m1.zf = true := by rw [hzf1]; exact decide_eq_true hz
      have hargT : ((b + 5 : Nat) : Int) - (((p + 3 : Nat) : Int) + 6) =
          ((b : Int) + 5) - ((p : Int) + 9) := by
        push_cast
        ring
      have e1 : buf.drop m1.rip = 0x0f :: 0x84 ::
          toU32 (((b + 5 : Nat) : Int) - ((m1.rip : Int) + 6)) % 256 ::
          toU32 (((b + 5 : Nat) : Int) - ((m1.rip : Int) + 6)) / 256 % 256 ::
          toU32 (((b + 5 : Nat) : Int) - ((m1.rip : Int) + 6)) / 65536 % 256 ::
          toU32 (((b + 5 : Nat) : Int) - ((m1.rip : Int) + 6)) / 16777216 % 256 ::
          buf.drop (m1.rip + 6) := by
        rw [hrip1', hargT, show p + 3 + 6 = p + 9 from by omega]
        exact hd3
      obtain ⟨m2, hs2, hrip2, hw2, h122, h142, hst2, hrd2, hm2⟩ :=
        step_je_taken e1 hzf1' (by omega) (by rw [hrip1']; omega)
      have hIter : IterGood buf ro wo 2 m m2 :=
        ⟨m1, hs1, goodStep_no_write hw1 hw, m2, hs2, goodStep_no_write hw2 hw1', rfl⟩
      refine @iterGood_safe_all buf ro wo 2 m m2 n n hIter (fun k hk => ?_) (by omega)
      refine ih2 hq k (by omega) m2
        ⟨by rw [h122]; exact hreg1.1, by rw [h142]; exact hreg1.2.1,
          by rw [hst2]; exact hreg1.2.2⟩
        hrip2 (by rw [hw2, hw1'])
        (fun k3 m5 hk3 a b c => hcont k3 m5 (by omega) a b c)
    · -- tape byte non-zero: fall into the body, loop back, recurse on fuel
      have hzf1' : m1.zf = false := by rw [hzf1]; exact decide_eq_false hz
      have e1 : buf.drop m1.rip = 0x0f :: 0x84 ::
          toU32 (((b : Int) + 5) - ((p : Int) + 9)) % 256 ::
          toU32 (((b : Int) + 5) - ((p : Int) + 9)) / 256 % 256 ::
          toU32 (((b : Int) + 5) - ((p : Int) + 9)) / 65536 % 256 ::
          toU32 (((b : Int) + 5) - ((p : Int) + 9)) / 16777216 % 256 ::
          buf.drop (m1.rip + 6) := by
        rw [hrip1', show p + 3 + 6 = p + 9 from by omega]
        exact hd3
      obtain ⟨m2, hs2, hrip2, hw2, h122, h142, hst2, hrd2, hm2⟩ :=
        step_je_not e1 hzf1'
      have hrip2' : m2.rip = p + 9 := by rw [hrip2, hrip1']
      have hw2' : m2.writes = 0 := by rw [hw2, hw1']
      have hreg2 : RegInv m2 :=
        ⟨by rw [h122]; exact hreg1.1, by rw [h142]; exact hreg1.2.1,
          by rw [hst2]; exact hreg1.2.2⟩
      have hIter : IterGood buf ro wo 2 m m2 :=
        ⟨m1, hs1, goodStep_no_write hw1 hw, m2, hs2, goodStep_no_write hw2 hw1', rfl⟩
      refine @iterGood_safe_all buf ro wo 2 m m2 (n - 2) n hIter (fun k hk => ?_) (by omega)
      refine ih1 (by omega) k (by omega) m2 hreg2 hrip2' hw2' ?_
      intro k1 m3 hk1 hreg3 hrip3 hw3
      have eB : buf.drop m3.rip = 0xe9 ::
          toU32 ((p : Int) - ((m3.rip : Int) + 5)) % 256 ::
          toU32 ((p : Int) - ((m3.rip : Int) + 5)) / 256 % 256 ::
          toU32 ((p : Int) - ((m3.rip : Int) + 5)) / 65536 % 256 ::
          toU32 ((p : Int) - ((m3.rip : Int) + 5)) / 16777216 % 256 ::
          buf.drop (m3.rip + 5) := by
        rw [hrip3]
        have := bytesAt_drop hback
        simpa [le32] using this
      obtain ⟨m4, hs4, hrip4, hw4, h124, h144, hst4, hrd4, hm4⟩ :=
        step_jmp32 eB (by omega) (by rw [hrip3]; omega)
      refine @iterGood_safe_all buf ro wo 1 m3 m4 (k1 - 1) k1
        (iterGood_single hs4 (goodStep_no_write hw4 hw3)) (fun k2 hk2 => ?_) (by omega)
      rcases Nat.eq_zero_or_pos k2 with h0 | h0
      · subst h0
        exact trivial
      · refine IHN k2 (by omega) p q (Laid.loop p b q hhead hbody hback t) hq
          k2 le_rfl m4
          ⟨by rw [h124]; exact hreg3.1, by rw [h144]; exact hreg3.2.1,
            by rw [hst4]; exact hreg3.2.2⟩
          hrip4 (by rw [hw4, hw3])
          (fun k3 m5 hk3 a b c => hcont k3 m5 (by omega) a b c)

theorem bytesAt_prefix {bs r : List Nat} : BytesAt (bs ++ r) 0 bs := by
  intro i hi
  rw [Nat.zero_add, List.getElem?_append, if_pos hi]

/-- Running the prologue from the entry state: the five pushes save the
callee-saved registers, the five moves stage the arguments, and the
two-byte jump skips the epilogue, leaving control at offset 34 with the
capability registers loaded and five values on the stack. -/
theorem prologue_run {buf : List Nat} {ro : Nat → Nat} {wo : Nat → Bool}
    (hB : BytesAt buf 0 (START ++ [0xeb, 0x09])) (w r base : Nat) (mem0 : Nat → Nat) :
    ∃ m1, IterGood buf ro wo 11 (initMachine w r base mem0) m1 ∧
      RegInv m1 ∧ m1.rip = 34 ∧ m1.writes = 0 := by
  have hfull : buf = 0x41 :: 0x54 :: 0x41 :: 0x55 :: 0x41 :: 0x56 :: 0x55 :: 0x53 ::
      0x49 :: 0x89 :: 0xfc :: 0x49 :: 0x89 :: 0xf5 :: 0x49 :: 0x89 :: 0xd6 ::
      0x48 :: 0x89 :: 0xcd :: 0x4c :: 0x89 :: 0xc3 :: 0xeb :: 0x09 :: buf.drop 25 := by
    have := bytesAt_drop hB
    simpa [START] using this
  have hd2 : buf.drop 2 = 0x41 :: 0x55 :: buf.drop 4 := by
    rw [hfull]
    rfl
  have hd4 : buf.drop 4 = 0x41 :: 0x56 :: buf.drop 6 := by
    rw [hfull]
    rfl
  have hd6 : buf.drop 6 = 0x55 :: buf.drop 7 := by
    rw [hfull]
    rfl
  have hd7 : buf.drop 7 = 0x53 :: buf.drop 8 := by
    rw [hfull]
    rfl
  have hd8 : buf.drop 8 = 0x49 :: 0x89 :: 0xfc :: buf.drop 11 := by
    rw [hfull]
    rfl
  have hd11 : buf.drop 11 = 0x49 :: 0x89 :: 0xf5 :: buf.drop 14 := by
    rw [hfull]
    rfl
  have hd14 : buf.drop 14 = 0x49 :: 0x89 :: 0xd6 :: buf.drop 17 := by
    rw [hfull]
    rfl
  have hd17 : buf.drop 17 = 0x48 :: 0x89 :: 0xcd :: buf.drop 20 := by
    rw [hfull]
    rfl
  have hd20 : buf.drop 20 = 0x4c :: 0x89 :: 0xc3 :: buf.drop 23 := by
    rw [hfull]
    rfl
  have hd23 : buf.drop 23 = 0xeb :: 0x09 :: buf.drop 25 := by
    rw [hfull]
    rfl
  have hd0 : buf.drop 0 = 0x41 :: 0x54 :: buf.drop 2 := by
    rw [List.drop_zero, hfull]
    rfl
  have hs1 : step buf ro wo (initMachine w r base mem0) = StepRes.running
      { initMachine w r base mem0 with rip := 2, stack := [0] } := by
    rw [step]
    simp only [initMachine, hd0, decode_pushR12]
  have hs2 : step buf ro wo { initMachine w r base mem0 with rip := 2, stack := [0] } =
      StepRes.running { initMachine w r base mem0 with rip := 4, stack := [0, 0] } := by
    rw [step]
    simp only [initMachine, hd2, decode_pushR13]
  have hs3 : step buf ro wo { initMachine w r base mem0 with rip := 4, stack := [0, 0] } =
      StepRes.running { initMachine w r base mem0 with rip := 6, stack := [0, 0, 0] } := by
    rw [step]
    simp only [initMachine, hd4, decode_pushR14]
  have hs4 : step buf ro wo
      { initMachine w r base mem0 with rip := 6, stack := [0, 0, 0] } =
      StepRes.running
      { initMachine w r base mem0 with rip := 7, stack := [0, 0, 0, 0] } := by
    rw [step]
    simp only [initMachine, hd6, decode_pushRbp]
  have hs5 : step buf ro wo
      { initMachine w r base mem0 with rip := 7, stack := [0, 0, 0, 0] } =
      StepRes.running
      { initMachine w r base mem0 with rip := 8, stack := [0, 0, 0, 0, 0] } := by
    rw [step]
    simp only [initMachine, hd7, decode_pushRbx]
  have hs6 : step buf ro wo
      { initMachine w r base mem0 with rip := 8, stack := [0, 0, 0, 0, 0] } =
      StepRes.running
      { initMachine w r base mem0 with rip := 11, stack := [0, 0, 0, 0, 0], r12 := WTOK } := by
    rw [step]
    simp only [initMachine, hd8, decode_movRdiR12]
  have hs7 : step buf ro wo
      { initMachine w r base mem0 with rip := 11, stack := [0, 0, 0, 0, 0], r12 := WTOK } =
      StepRes.running
      { initMachine w r base mem0 with rip := 14, stack := [0, 0, 0, 0, 0], r12 := WTOK, r13 := w % U64 } := by
    rw [step]
    simp only [initMachine, hd11, decode_movRsiR13]
  have hs8 : step buf ro wo
      { initMachine w r base mem0 with rip := 14, stack := [0, 0, 0, 0, 0], r12 := WTOK, r13 := w % U64 } =
      StepRes.running
      { initMachine w r base mem0 with rip := 17, stack := [0, 0, 0, 0, 0], r12 := WTOK, r13 := w % U64, r14 := RTOK } := by
    rw [step]
    simp only [initMachine, hd14, decode_movRdxR14]
  have hs9 : step buf ro wo
      { initMachine w r base mem0 with rip := 17, stack := [0, 0, 0, 0, 0], r12 := WTOK, r13 := w % U64, r14 := RTOK } =
      StepRes.running
      { initMachine w r base mem0 with rip := 20, stack := [0, 0, 0, 0, 0], r12 := WTOK, r13 := w % U64, r14 := RTOK, rbp := r % U64 } := by
    rw [step]
    simp only [initMachine, hd17, decode_movRcxRbp]
  have hs10 : step buf ro wo
      { initMachine w r base mem0 with rip := 20, stack := [0, 0, 0, 0, 0], r12 := WTOK, r13 := w % U64, r14 := RTOK, rbp := r % U64 } =
      StepRes.running
      { initMachine w r base mem0 with rip := 23, stack := [0, 0, 0, 0, 0], r12 := WTOK, r13 := w % U64, r14 := RTOK, rbp := r % U64, rbx := base % U64 } := by
    rw [step]
    simp only [initMachine, hd20, decode_movR8Rbx]
  have hs11 : step buf ro wo
      { initMachine w r base mem0 with rip := 23, stack := [0, 0, 0, 0, 0], r12 := WTOK, r13 := w % U64, r14 := RTOK, rbp := r % U64, rbx := base % U64 } =
      StepRes.running
      { initMachine w r base mem0 with rip := 34, stack := [0, 0, 0, 0, 0], r12 := WTOK, r13 := w % U64, r14 := RTOK, rbp := r % U64, rbx := base % U64 } := by
    rw [step]
    simp only [initMachine, hd23, decode_jmp8]
    rfl
  refine ⟨{ initMachine w r base mem0 with rip := 34, stack := [0, 0, 0, 0, 0], r12 := WTOK, r13 := w % U64, r14 := RTOK, rbp := r % U64, rbx := base % U64 },
    ⟨_, hs1, goodStep_no_write rfl rfl, _, hs2, goodStep_no_write rfl rfl,
      _, hs3, goodStep_no_write rfl rfl, _, hs4, goodStep_no_write rfl rfl,
      _, hs5, goodStep_no_write rfl rfl, _, hs6, goodStep_no_write rfl rfl,
      _, hs7, goodStep_no_write rfl rfl, _, hs8, goodStep_no_write rfl rfl,
      _, hs9, goodStep_no_write rfl rfl, _, hs10, goodStep_no_write rfl rfl,
      _, hs11, goodStep_no_write rfl rfl, rfl⟩,
    ⟨rfl, rfl, rfl⟩, rfl, rfl⟩

/-- C9: for every source whose build succeeds, running the compiled buffer
with a write capability that always reports failure is safe for any fuel:
the machine never gets stuck, the write counter makes at most the single
0-to-1 transition, and every state that has performed that first write
call is already on a frozen path — within eight steps (the comparison, the
`jne` to the shared exit, and the six-step epilogue) the run halts with no
further tape mutation and no further capability invocation.  In
particular, after the first `.` whose write fails, no subsequent
instruction of the program is executed. -/
theorem c9_write_failure_stops (s : List Char) (buf : List Nat)
    (hbuild : buildCode s = some buf) (hlen : buf.length ≤ 2 ^ 31)
    (ro : Nat → Nat) (hro : ∀ k, ro k < 2 ^ 31)
    (w r base : Nat) (mem0 : Nat → Nat) (n : Nat) :
    Safe buf ro (fun _ => false) n (initMachine w r base mem0) := by
  rcases hgen : generate_sequence_code exit_offset s
      (START ++ [0xeb, EXIT.length] ++ EXIT) with _ | code1
  · simp only [buildCode, hgen] at hbuild
    cases hbuild
  · simp only [buildCode, hgen, Option.some_inj] at hbuild
    have hadd : add_jmp_to_offset exit_offset code1 = buf := hbuild
    have hbe0 : BufExt (START ++ [0xeb, EXIT.length] ++ EXIT) code1 :=
      generate_sequence_code_bufExt exit_offset s _ code1 hgen
    obtain ⟨t, ht⟩ := hbe0
    have hlen1 : buf.length = code1.length + 5 := by
      rw [← hadd]
      exact add_jmp_to_offset_length _ _
    have h31 : code1.length + 5 ≤ 2 ^ 31 := by omega
    have hq31 : code1.length < 2 ^ 31 := by omega
    have hagc : AgreeFrom (START ++ [0xeb, EXIT.length] ++ EXIT).length code1 buf := by
      refine bufExt_agreeFrom ?_
      rw [← hadd]
      exact add_jmp_to_offset_bufExt _ _
    have hLaid : Laid buf exit_offset
        (START ++ [0xeb, EXIT.length] ++ EXIT).length code1.length :=
      genSeq_laid exit_offset s _ code1 hgen h31 buf hagc
    rw [show (START ++ [0xeb, EXIT.length] ++ EXIT).length = 34 from rfl] at hLaid
    have hbufshape : buf = (START ++ [0xeb, 0x09]) ++ (EXIT ++ (t ++ ([0xe9] ++
        le32 (toU32 ((exit_offset : Int) - (((code1 ++ [0xe9]).length : Int) + 4)))))) := by
      rw [← hadd, add_jmp_to_offset, ht]
      simp [List.append_assoc, EXIT, START]
    have hB0 : BytesAt buf 0 (START ++ [0xeb, 0x09]) := by
      rw [hbufshape]
      exact bytesAt_prefix
    have hE : BytesAt buf exit_offset EXIT := by
      rw [hbufshape, show exit_offset = (START ++ [0xeb, 0x09]).length from rfl]
      exact bytesAt_here
    have hlex : ((code1 ++ [0xe9]).length) = code1.length + 1 := by simp
    have hjarg : (exit_offset : Int) - (((code1 ++ [0xe9]).length : Int) + 4) =
        (exit_offset : Int) - ((code1.length : Int) + 5) := by
      rw [hlex]
      push_cast
      ring
    have hBj : BytesAt buf code1.length ([0xe9] ++
        le32 (toU32 ((exit_offset : Int) - ((code1.length : Int) + 5)))) := by
      rw [← hadd, add_jmp_to_offset, hjarg, List.append_assoc]
      exact bytesAt_here2
    obtain ⟨m1, hIterP, hreg1, hrip1, hw1⟩ := prologue_run hB0 w r base mem0
    refine @iterGood_safe_all buf ro (fun _ => false) 11 _ m1 n n hIterP
      (fun k hk => ?_) (by omega)
    refine laid_safe (fun _ => rfl) hro hE (by norm_num [exit_offset, START])
      k 34 code1.length hLaid hq31 k le_rfl m1 hreg1 hrip1 hw1 ?_
    intro k1 m2 hk1 hreg2 hrip2 hw2
    have eJ : buf.drop m2.rip = 0xe9 ::
        toU32 ((exit_offset : Int) - ((m2.rip : Int) + 5)) % 256 ::
        toU32 ((exit_offset : Int) - ((m2.rip : Int) + 5)) / 256 % 256 ::
        toU32 ((exit_offset : Int) - ((m2.rip : Int) + 5)) / 65536 % 256 ::
        toU32 ((exit_offset : Int) - ((m2.rip : Int) + 5)) / 16777216 % 256 ::
        buf.drop (m2.rip + 5) := by
      rw [hrip2]
      have := bytesAt_drop hBj
      simpa [le32] using this
    obtain ⟨m3, hsJ, hrip3, hw3, h123, h143, hst3, hrd3, hm3⟩ :=
      step_jmp32 eJ (by norm_num [exit_offset, START]) (by rw [hrip2]; omega)
    obtain ⟨hsafeE, _⟩ := epilogue_run buf ro (fun _ => false) exit_offset hE m3 hrip3
      (by rw [hst3]; exact hreg2.2.2)
    exact safe_step_cons hsJ (goodStep_no_write hw3 hw2) hsafeE k1

/-- Witness for C9: the one-instruction program `.`, compiled and run with
the always-failing write capability. -/
theorem c9_write_failure_stops_witness :
    buildCode ['.'] = some dotBuf ∧
    Safe dotBuf (fun _ => 0) (fun _ => false) 20 (initMachine 0 0 0 (fun _ => 0)) := by
  have hb : buildCode ['.'] = some dotBuf := by
    simp [buildCode, generate_sequence_code, add_jne_to_exit, add_jmp_to_offset,
      dotBuf, START, EXIT, WRITE, le32, toU32, U32, exit_offset]
  exact ⟨hb, c9_write_failure_stops ['.'] dotBuf hb (by norm_num [dotBuf])
    (fun _ => 0) (fun _ => by norm_num) 0 0 0 (fun _ => 0) 20⟩
